import Mathlib

set_option maxHeartbeats 1000000
set_option maxRecDepth 8000

/-
Shallow embedding of the store-import reconciliation pipeline of the
SecretSauce repository:

  * src/scripts/scraper_common.py   (feature parsing, key building)
  * src/scripts/import_new_stores.py (batch import run)
  * src/scripts/geoscraper.py        (real-time ZIP-targeted import run)
  * src/scripts/fix_missing_geo.py   (geometry backfill / fallback resolver)

Python strings are modelled as Lean `String` with executable, structurally
recursive models of the Python string primitives used by the code
(`str.lower`, `str.strip`, `str.split('-')`); numeric JSON values that the
code only ever interpolates into strings (coordinates) are carried as their
decimal-literal strings; `None`-able values are `Option`; Python sets and
dicts that the code only queries by membership/lookup are association lists.
HTTP fetches, database insert outcomes and the geocoding service are oracles
supplied to each run.
-/

namespace SecretSauce

/-- Python `str.lower()` (ASCII case mapping, as used on store names). -/
def pyLower (s : String) : String := String.mk (s.data.map Char.toLower)

/-- Drop leading whitespace characters from a character list. -/
def dropWs : List Char → List Char
  | [] => []
  | c :: cs => if c.isWhitespace then dropWs cs else c :: cs

/-- Python `str.strip()`: remove leading and trailing whitespace. -/
def pyStrip (s : String) : String :=
  String.mk ((dropWs (dropWs s.data).reverse).reverse)

/-- Helper for `pySplitDash`: split a character list at `'-'` separators,
accumulating the current (reversed) segment. -/
def splitDashAux : List Char → List Char → List String
  | [], acc => [String.mk acc.reverse]
  | c :: cs, acc =>
    if c = '-' then String.mk acc.reverse :: splitDashAux cs []
    else splitDashAux cs (c :: acc)

/-- Python `str.split('-')` (always returns at least one segment;
`"".split('-') == [""]`). -/
def pySplitDash (s : String) : List String := splitDashAux s.data []

/-- Python `str.split('-')[0].strip()`: the repository's raw-ZIP
normalization (strip a "+4" suffix, trim whitespace). -/
def normRawZip (raw : String) : String := pyStrip ((pySplitDash raw).headD "")

/-- Python `props.get(key, default)` for the string-valued property maps of
GeoJSON features (dict keys are unique, so first match is the match). -/
def propGet (ps : List (String × String)) (k d : String) : String :=
  match ps.find? (fun p => decide (p.1 = k)) with
  | some p => p.2
  | none => d

/-- One GeoJSON feature: its `properties` map and
`feature.get('geometry', {}).get('coordinates')` (absent geometry or absent
coordinates collapse to `none`, exactly as the Python chained `.get` does);
coordinate numbers are carried as their decimal-literal strings. -/
structure Feature where
  properties : List (String × String)
  coordinates : Option (List String)
deriving DecidableEq

/-- A store record as built for insertion into `grocery_stores`. -/
structure StoreRecord where
  store_enum : String
  name : String
  address : Option String
  city : Option String
  state : Option String
  zip_code : String
  geom : String
  failure_count : Nat
deriving DecidableEq

/-- The street-address assembly shared verbatim by parse_store_from_feature,
import_new_stores and run_geoscraper: `"<housenumber> <street>"` when both
are truthy, else the street alone when truthy, else `None` (the
`', '.join(filter(None, address_parts))` collapses to the single part). -/
def streetAddressOf (housenumber street : String) : Option String :=
  if housenumber ≠ "" ∧ street ≠ "" then some (housenumber ++ " " ++ street)
  else if street ≠ "" then some street
  else none

/-- The store-record literal built from extracted feature fields (shared
shape of scraper_common.parse_store_from_feature and the inline record
construction in import_new_stores/run_geoscraper). -/
def mkStoreRecord (brand_enum name : String) (street_address : Option String)
    (city state zip_code lon lat : String) : StoreRecord :=
  { store_enum := brand_enum
    name := name
    address := street_address
    city := if city = "" then none else some city
    state := if state = "" then none else some state
    zip_code := zip_code
    geom := "POINT(" ++ lon ++ " " ++ lat ++ ")"
    failure_count := 0 }

namespace ScraperCommon

/-- src/scripts/scraper_common.py, `build_store_key`: the composite key
`"{store_enum}:{normalized_name}:{normalized_zip}"` with
`normalized_name = name.lower().strip() if name else ""` and
`normalized_zip = str(zip_code).split('-')[0].strip() if zip_code else ""`. -/
def build_store_key (store_enum name zip_code : String) : String :=
  let normalized_name := if name = "" then "" else pyStrip (pyLower name)
  let normalized_zip := if zip_code = "" then "" else normRawZip zip_code
  store_enum ++ ":" ++ normalized_name ++ ":" ++ normalized_zip

/-- src/scripts/scraper_common.py, `parse_store_from_feature`: parse one
GeoJSON feature into a store record, or reject it (`None`). -/
def parse_store_from_feature (feature : Feature) (brand_enum : String) :
    Option StoreRecord :=
  let props := feature.properties
  let name := propGet props "name" (propGet props "brand" "")
  let raw_zip := propGet props "addr:postcode" (propGet props "postcode" "")
  let zip_code := normRawZip raw_zip
  if name = "" ∨ zip_code = "" then none
  else
    match feature.coordinates with
    | some [lon, lat] =>
      let street := propGet props "addr:street" (propGet props "street" "")
      let housenumber :=
        propGet props "addr:housenumber" (propGet props "housenumber" "")
      let city := propGet props "addr:city" (propGet props "city" "")
      let state := propGet props "addr:state" (propGet props "state" "")
      some (mkStoreRecord brand_enum name (streetAddressOf housenumber street)
        city state zip_code lon lat)
    | _ => none

end ScraperCommon

namespace ImportNew

/-- src/scripts/import_new_stores.py, `build_store_key`: the file's own copy
of the key builder (textually identical logic to the scraper_common one). -/
def build_store_key (store_enum name zip_code : String) : String :=
  let normalized_name := if name = "" then "" else pyStrip (pyLower name)
  let normalized_zip := if zip_code = "" then "" else normRawZip zip_code
  store_enum ++ ":" ++ normalized_name ++ ":" ++ normalized_zip

end ImportNew

/-- The C9 claim's reading of the key builder, following the spec's words:
the ZIP component is "the ZIP truncated to 5 digits" (its first five
characters). Written for comparison with the source definition. -/
def buildKeySpecTruncate5 (brand name zip : String) : String :=
  brand ++ ":" ++ pyStrip (pyLower name) ++ ":" ++ String.mk (zip.data.take 5)

/-- The guarded ZIP normalization the source actually performs
(Python `str(zip).split('-')[0].strip() if zip else ""`). -/
def pyNormZip (zip : String) : String :=
  if zip = "" then "" else normRawZip zip

/-- The concrete feature of the C8 scenario: properties
`{name: "Kroger", postcode: "47906-1234", street: "Main St",
housenumber: "100"}` and coordinates `[-86.9, 40.4]`. -/
def krogerFeature : Feature :=
  { properties :=
      [("name", "Kroger"), ("postcode", "47906-1234"),
       ("street", "Main St"), ("housenumber", "100")]
    coordinates := some ["-86.9", "40.4"] }

/-- The store record the C8 scenario expects `krogerFeature` to produce. -/
def krogerExpected : StoreRecord :=
  { store_enum := "kroger"
    name := "Kroger"
    address := some "100 Main St"
    city := none
    state := none
    zip_code := "47906"
    geom := "POINT(-86.9 40.4)"
    failure_count := 0 }

/-- C8: parsing the Kroger feature yields exactly the expected record
(address "100 Main St", zip "47906", geometry "POINT(-86.9 40.4)"), and in
general every successfully parsed feature with coordinates `[lon, lat]` emits
the point literal with longitude first. -/
theorem c8_parse_feature_scenario_and_lon_first :
    ScraperCommon.parse_store_from_feature krogerFeature "kroger" =
      some krogerExpected ∧
    ∀ (f : Feature) (b lon lat : String) (r : StoreRecord),
      f.coordinates = some [lon, lat] →
      ScraperCommon.parse_store_from_feature f b = some r →
      r.geom = "POINT(" ++ lon ++ " " ++ lat ++ ")" := by
  constructor
  · decide
  · intro f b lon lat r hc hp
    unfold ScraperCommon.parse_store_from_feature at hp
    simp only [hc] at hp
    split at hp
    · exact absurd hp (by simp)
    · injection hp with h2
      rw [← h2]
      rfl

/-- C8 witness: the general longitude-first conclusion applied at the concrete
Kroger scenario. -/
theorem c8_parse_feature_witness :
    krogerExpected.geom = "POINT(" ++ "-86.9" ++ " " ++ "40.4" ++ ")" :=
  c8_parse_feature_scenario_and_lon_first.2 krogerFeature "kroger" "-86.9"
    "40.4" krogerExpected rfl c8_parse_feature_scenario_and_lon_first.1

/-- C9 counterexample: the key builder does not truncate the ZIP component to
5 digits — a dash-free ZIP longer than 5 characters is kept whole, so the
claimed key shape fails at `("aldi", "n", "1234567")`. -/
theorem c9_counterexample_no_five_digit_truncation :
    ScraperCommon.build_store_key "aldi" "n" "1234567" ≠
      buildKeySpecTruncate5 "aldi" "n" "1234567" := by
  decide

/-- C9 amended: `build_store_key brand name zip` is always
`"<brand>:<lowercased-stripped-name>:<zip-before-first-dash, stripped>"` (the
ZIP component strips a "+4" suffix rather than truncating to 5 digits); the
scraper_common and import_new_stores copies agree; and the normalization sends
both `"47906-1234"` and `"47906"` to the same 5-character result `"47906"`,
idempotently. -/
theorem c9_build_store_key_amended :
    (∀ brand name zip : String,
      ScraperCommon.build_store_key brand name zip =
        brand ++ ":" ++ pyStrip (pyLower name) ++ ":" ++
          pyStrip ((pySplitDash zip).headD "")) ∧
    (∀ brand name zip : String,
      ImportNew.build_store_key brand name zip =
        ScraperCommon.build_store_key brand name zip) ∧
    pyNormZip "47906-1234" = "47906" ∧
    pyNormZip "47906" = "47906" ∧
    (pyNormZip "47906").length = 5 ∧
    pyNormZip (pyNormZip "47906-1234") = pyNormZip "47906-1234" ∧
    pyNormZip (pyNormZip "47906") = pyNormZip "47906" := by
  refine ⟨?_, ?_, by decide, by decide, by decide, by decide, by decide⟩
  · intro brand name zip
    have t0 : pyStrip (pyLower "") = "" := by decide
    have t1 : pyStrip ((pySplitDash "").head?.getD "") = "" := by decide
    simp only [ScraperCommon.build_store_key, normRawZip]
    by_cases hn : name = "" <;> by_cases hz : zip = "" <;>
      simp [hn, hz, t0, t1]
  · intro brand name zip
    rfl

/-- Extraction of a feature's display name:
`props.get('name', props.get('brand', ''))`. -/
def featName (f : Feature) : String :=
  propGet f.properties "name" (propGet f.properties "brand" "")

/-- Extraction of a feature's raw postal code:
`str(props.get('addr:postcode', props.get('postcode', '')))`. -/
def featRawZip (f : Feature) : String :=
  propGet f.properties "addr:postcode" (propGet f.properties "postcode" "")

/-- A feature's normalized ZIP: `raw_zip.split('-')[0].strip()`. -/
def featZip (f : Feature) : String := normRawZip (featRawZip f)

/-- `props.get('addr:street', props.get('street', ''))`. -/
def featStreet (f : Feature) : String :=
  propGet f.properties "addr:street" (propGet f.properties "street" "")

/-- `props.get('addr:housenumber', props.get('housenumber', ''))`. -/
def featHousenumber (f : Feature) : String :=
  propGet f.properties "addr:housenumber" (propGet f.properties "housenumber" "")

/-- `props.get('addr:city', props.get('city', ''))`. -/
def featCity (f : Feature) : String :=
  propGet f.properties "addr:city" (propGet f.properties "city" "")

/-- `props.get('addr:state', props.get('state', ''))`. -/
def featState (f : Feature) : String :=
  propGet f.properties "addr:state" (propGet f.properties "state" "")

/-- Run statistics collected by the import and geoscraper runs. -/
structure RunStats where
  new_stores : Nat
  duplicates_skipped : Nat
  no_geometry : Nat
  wrong_zipcode : Nat
  errors : Nat
deriving DecidableEq

/-- The zeroed statistics dictionary. -/
def initStats : RunStats := ⟨0, 0, 0, 0, 0⟩

/-- Outcome of fetching one brand's GeoJSON dataset: the streamed feature
list on success, or the exception class raised by the session
(`requests.exceptions.HTTPError` with its status code, or
`requests.exceptions.RequestException`). -/
inductive FetchResult where
  | success (features : List Feature)
  | httpError (status : Nat)
  | networkError
deriving DecidableEq

/-- Association-list lookup used for Python `dict.get(key)` on
string-to-string dicts. -/
def dictGet (m : List (String × String)) (k : String) : Option String :=
  (m.find? (fun p => decide (p.1 = k))).map (fun p => p.2)

namespace ImportNew

/-- src/scripts/import_new_stores.py `ENUM_TO_SPIDER` (also imported and
used by src/scripts/geoscraper.py). -/
def ENUM_TO_SPIDER : List (String × String) :=
  [("aldi", "aldi"), ("kroger", "kroger"), ("safeway", "safeway"),
   ("meijer", "meijer"), ("target", "target_us"),
   ("traderjoes", "trader_joes_us"), ("99ranch", "99_ranch_market"),
   ("walmart", "walmart_us"), ("wholefoods", "whole_foods_market")]

/-- `BATCH_SIZE = 100` in import_new_stores.py. -/
def BATCH_SIZE : Nat := 100

/-- `DELAY_AFTER_ERROR = 60` seconds in import_new_stores.py. -/
def DELAY_AFTER_ERROR : Nat := 60

/-- The composite key the import run computes for a feature:
`build_store_key(brand_enum, name, zip_code)` with the already-normalized
feature ZIP. -/
def featKey (brand_enum : String) (f : Feature) : String :=
  build_store_key brand_enum (featName f) (featZip f)

/-- `zips_with_stores[zip] = zips_with_stores.get(zip, 0) + 1`. -/
def bumpZip : List (String × Nat) → String → List (String × Nat)
  | [], z => [(z, 1)]
  | (k, n) :: rest, z =>
    if k = z then (k, n + 1) :: rest else (k, n) :: bumpZip rest z

/-- `record_inserted_zips`: count inserted records per (truthy) ZIP. -/
def record_inserted_zips (records : List StoreRecord)
    (zs : List (String × Nat)) : List (String × Nat) :=
  records.foldl
    (fun acc r => if r.zip_code = "" then acc else bumpZip acc r.zip_code) zs

/-- `if target_zipcodes and zip_code not in target_zipcodes` (an absent or
empty target set is falsy and disables the filter). -/
def targetRejects (target : Option (List String)) (z : String) : Bool :=
  match target with
  | none => false
  | some ts => decide (ts ≠ []) && decide (z ∉ ts)

/-- State of one `import_new_stores` run. `attempts` records every insert
call issued together with its outcome, `insertCalls` counts them (indexing
the success oracle), `delays` accumulates recovery-sleep seconds, and
`allAccepted` is a history variable listing every record ever queued; the
remaining fields are the run's own mutable values. -/
structure St where
  stats : RunStats
  existing_stores : List String
  stores_to_insert : List StoreRecord
  attempts : List (List StoreRecord × Bool)
  insertCalls : Nat
  zips_with_stores : List (String × Nat)
  delays : Nat
  allAccepted : List StoreRecord
deriving DecidableEq

/-- Increment `stats["errors"]`. -/
def bumpErrors (st : St) : St :=
  { st with stats := { st.stats with errors := st.stats.errors + 1 } }

/-- One iteration of the feature loop of import_new_stores (lines 198-265):
skip on missing name/ZIP, wrong-ZIP filter, duplicate-key check, geometry
check, record construction, queueing (adding the key to the in-memory set at
queue time), and the batched insert once the accumulator reaches
`BATCH_SIZE`. The returned flag reports a raised insert exception, which
aborts the brand's feature stream. The insert outcome is `ora.getD call#
true` (the oracle defaults to success). -/
def featureStep (target : Option (List String)) (ora : List Bool)
    (brand_enum : String) (st : St) (f : Feature) : St × Bool :=
  let name := featName f
  let zip_code := featZip f
  if name = "" ∨ zip_code = "" then (st, false)
  else if targetRejects target zip_code then
    ({ st with stats :=
        { st.stats with wrong_zipcode := st.stats.wrong_zipcode + 1 } }, false)
  else
    let store_key := featKey brand_enum f
    if store_key ∈ st.existing_stores then
      ({ st with stats :=
          { st.stats with
            duplicates_skipped := st.stats.duplicates_skipped + 1 } }, false)
    else
      match f.coordinates with
      | some [lon, lat] =>
        let store_record := mkStoreRecord brand_enum name
          (streetAddressOf (featHousenumber f) (featStreet f))
          (featCity f) (featState f) zip_code lon lat
        let st1 := { st with
          stores_to_insert := st.stores_to_insert ++ [store_record]
          existing_stores := st.existing_stores ++ [store_key]
          allAccepted := st.allAccepted ++ [store_record] }
        if BATCH_SIZE ≤ st1.stores_to_insert.length then
          let batch := st1.stores_to_insert
          if ora.getD st1.insertCalls true then
            ({ st1 with
               attempts := st1.attempts ++ [(batch, true)]
               insertCalls := st1.insertCalls + 1
               stats := { st1.stats with
                 new_stores := st1.stats.new_stores + batch.length }
               zips_with_stores :=
                 record_inserted_zips batch st1.zips_with_stores
               stores_to_insert := [] }, false)
          else
            ({ st1 with
               attempts := st1.attempts ++ [(batch, false)]
               insertCalls := st1.insertCalls + 1 }, true)
        else (st1, false)
      | _ =>
        ({ st with stats :=
            { st.stats with no_geometry := st.stats.no_geometry + 1 } }, false)

/-- The feature loop over one brand's stream; a raised insert exception
aborts the remaining features. -/
def featuresLoop (target : Option (List String)) (ora : List Bool)
    (brand_enum : String) : St → List Feature → St × Bool
  | st, [] => (st, false)
  | st, f :: rest =>
    match featureStep target ora brand_enum st f with
    | (st', true) => (st', true)
    | (st', false) => featuresLoop target ora brand_enum st' rest

/-- One brand iteration of import_new_stores (lines 172-293): unmapped
brands are skipped; a successful fetch streams the features (an insert
exception is caught by the generic handler, incrementing `errors`); an
HTTP error increments `errors` and additionally sleeps `DELAY_AFTER_ERROR`
seconds when the status is 5xx; a network error sleeps and increments
`errors`. -/
def brandStep (target : Option (List String)) (ora : List Bool) (st : St)
    (b : String × FetchResult) : St :=
  match dictGet ENUM_TO_SPIDER b.1 with
  | none => st
  | some _ =>
    match b.2 with
    | .success fs =>
      match featuresLoop target ora b.1 st fs with
      | (st', true) => bumpErrors st'
      | (st', false) => st'
    | .httpError code =>
      if 500 ≤ code then
        bumpErrors { st with delays := st.delays + DELAY_AFTER_ERROR }
      else bumpErrors st
    | .networkError =>
      bumpErrors { st with delays := st.delays + DELAY_AFTER_ERROR }

/-- The brand loop. -/
def brandsLoop (target : Option (List String)) (ora : List Bool) :
    St → List (String × FetchResult) → St
  | st, [] => st
  | st, b :: rest => brandsLoop target ora (brandStep target ora st b) rest

/-- Initial run state, seeded with the pre-fetched existing-store keys. -/
def initState (existing : List String) : St :=
  { stats := initStats, existing_stores := existing, stores_to_insert := [],
    attempts := [], insertCalls := 0, zips_with_stores := [], delays := 0,
    allAccepted := [] }

/-- The final "insert remaining stores" block (lines 296-306): one last
insert call inside its own try/except; a failure increments `errors` and
leaves the accumulator untouched. -/
def finalFlush (ora : List Bool) (st : St) : St :=
  if st.stores_to_insert = [] then st
  else
    let batch := st.stores_to_insert
    if ora.getD st.insertCalls true then
      { st with
        attempts := st.attempts ++ [(batch, true)]
        insertCalls := st.insertCalls + 1
        stats := { st.stats with
          new_stores := st.stats.new_stores + batch.length }
        zips_with_stores := record_inserted_zips batch st.zips_with_stores
        stores_to_insert := [] }
    else
      bumpErrors { st with
        attempts := st.attempts ++ [(batch, false)]
        insertCalls := st.insertCalls + 1 }

/-- One `import_new_stores` run over the given brands and their fetch
outcomes, starting from the pre-fetched existing keys. (The
scraped-ZIP-tracking upserts and console reporting that follow are
side-effect-only and are not modelled.) -/
def run (target : Option (List String)) (ora : List Bool)
    (existing : List String) (brands : List (String × FetchResult)) : St :=
  finalFlush ora (brandsLoop target ora (initState existing) brands)

/-- The records committed by insert calls that succeeded. -/
def insertedRecords (st : St) : List StoreRecord :=
  (st.attempts.filter (fun a => a.2)).foldl (fun acc a => acc ++ a.1) []

end ImportNew

/-- C6 counterexample: a brand whose dataset fetch 404s on its only location
is skipped with no stores touched, but the `errors` counter is incremented
(the `stats["errors"] += 1` in the HTTPError handler is unconditional), so
the claim's "errors counter is left unchanged" is false. -/
theorem c6_counterexample_404_increments_errors :
    (ImportNew.run none [] [] [("aldi", FetchResult.httpError 404)]).stats.errors
        = 1 ∧
    (ImportNew.run none [] [] [("aldi", FetchResult.httpError 404)]).attempts
        = [] ∧
    (ImportNew.run none [] [] [("aldi", FetchResult.httpError 404)]).allAccepted
        = [] := by
  decide

/-- C6 amended: a 404 fetch skips the brand with no stores touched and the
run continues to the next brand, but `errors` is incremented by exactly 1,
just as for network and 5xx errors; the only distinction is the 60-second
recovery delay, which a 404 does not trigger while 5xx and network errors
do. -/
theorem c6_error_paths_amended :
    ∀ (target : Option (List String)) (ora : List Bool) (st : ImportNew.St)
      (brand sp : String) (rest : List (String × FetchResult)),
      dictGet ImportNew.ENUM_TO_SPIDER brand = some sp →
      (ImportNew.brandStep target ora st (brand, FetchResult.httpError 404) =
         ImportNew.bumpErrors st) ∧
      (ImportNew.brandStep target ora st (brand, FetchResult.httpError 500) =
         ImportNew.bumpErrors
           { st with delays := st.delays + ImportNew.DELAY_AFTER_ERROR }) ∧
      (ImportNew.brandStep target ora st (brand, FetchResult.networkError) =
         ImportNew.bumpErrors
           { st with delays := st.delays + ImportNew.DELAY_AFTER_ERROR }) ∧
      (ImportNew.brandsLoop target ora st
          ((brand, FetchResult.httpError 404) :: rest) =
         ImportNew.brandsLoop target ora (ImportNew.bumpErrors st) rest) := by
  intro target ora st brand sp rest hsp
  have h404 : ImportNew.brandStep target ora st
      (brand, FetchResult.httpError 404) = ImportNew.bumpErrors st := by
    unfold ImportNew.brandStep
    rw [hsp]
    rfl
  refine ⟨h404, ?_, ?_, ?_⟩
  · unfold ImportNew.brandStep
    rw [hsp]
    rfl
  · unfold ImportNew.brandStep
    rw [hsp]
  · unfold ImportNew.brandsLoop
    rw [h404]
    cases rest
    · rfl
    · rfl

/-- C6 witness: the amended error-path equations at the concrete brand
"aldi" and the empty initial state. -/
theorem c6_error_paths_witness :
    (ImportNew.brandStep none [] (ImportNew.initState [])
        ("aldi", FetchResult.httpError 404) =
      ImportNew.bumpErrors (ImportNew.initState [])) ∧
    (ImportNew.brandStep none [] (ImportNew.initState [])
        ("aldi", FetchResult.httpError 500) =
      ImportNew.bumpErrors
        { ImportNew.initState [] with
          delays := (ImportNew.initState []).delays +
            ImportNew.DELAY_AFTER_ERROR }) ∧
    (ImportNew.brandStep none [] (ImportNew.initState [])
        ("aldi", FetchResult.networkError) =
      ImportNew.bumpErrors
        { ImportNew.initState [] with
          delays := (ImportNew.initState []).delays +
            ImportNew.DELAY_AFTER_ERROR }) ∧
    (ImportNew.brandsLoop none [] (ImportNew.initState [])
        [("aldi", FetchResult.httpError 404)] =
      ImportNew.brandsLoop none []
        (ImportNew.bumpErrors (ImportNew.initState [])) []) :=
  c6_error_paths_amended none [] (ImportNew.initState []) "aldi" "aldi" []
    (by decide)

/-- The composite key of a queued record, recomputed from its fields (equal,
by construction, to the key the run computed when accepting it). -/
def recKey (r : StoreRecord) : String :=
  ImportNew.build_store_key r.store_enum r.name r.zip_code

/-- How many records in a list carry a given composite key. -/
def countKey (recs : List StoreRecord) (K : String) : Nat :=
  recs.countP (fun r => decide (recKey r = K))

/-- Key-tracking invariant of an import-run state: every record ever
accepted has its key in the in-memory existing-keys set, and no two accepted
records share a key. -/
def InvKeys (st : ImportNew.St) : Prop :=
  (∀ r ∈ st.allAccepted, recKey r ∈ st.existing_stores) ∧
  ∀ K, countKey st.allAccepted K ≤ 1

theorem invKeys_extend (E : List String) (A : List StoreRecord)
    (r0 : StoreRecord) (h1 : ∀ r ∈ A, recKey r ∈ E)
    (h2 : ∀ K, countKey A K ≤ 1) (hk : recKey r0 ∉ E) :
    (∀ r ∈ A ++ [r0], recKey r ∈ E ++ [recKey r0]) ∧
    (∀ K, countKey (A ++ [r0]) K ≤ 1) := by
  constructor
  · intro r hr
    rcases List.mem_append.mp hr with hA | hB
    · exact List.mem_append_left _ (h1 r hA)
    · rcases List.mem_singleton.mp hB with rfl
      exact List.mem_append_right _ (List.mem_singleton.mpr rfl)
  · intro K
    simp only [countKey, List.countP_append, List.countP_cons,
      List.countP_nil]
    by_cases hKeq : recKey r0 = K
    · have hzero : List.countP (fun r => decide (recKey r = K)) A = 0 := by
        rw [List.countP_eq_zero]
        intro r hr
        simp only [decide_eq_true_eq]
        intro heq
        exact hk (by rw [hKeq, ← heq]; exact h1 r hr)
      simp [hzero, hKeq]
    · have h2K := h2 K
      simp only [countKey] at h2K
      simp [hKeq]
      omega

theorem featureStep_invKeys (target : Option (List String)) (ora : List Bool)
    (brand : String) (st : ImportNew.St) (f : Feature) (h : InvKeys st) :
    InvKeys (ImportNew.featureStep target ora brand st f).1 := by
  unfold ImportNew.featureStep
  dsimp only
  split
  · exact h
  · split
    · exact h
    · split
      · exact h
      · rename_i hkey
        split
        · rename_i lon lat heq
          have hext := invKeys_extend st.existing_stores st.allAccepted
            (mkStoreRecord brand (featName f)
              (streetAddressOf (featHousenumber f) (featStreet f))
              (featCity f) (featState f) (featZip f) lon lat)
            h.1 h.2 hkey
          split
          · split
            · exact hext
            · exact hext
          · exact hext
        · exact h

theorem featuresLoop_invKeys (target : Option (List String)) (ora : List Bool)
    (brand : String) :
    ∀ (fs : List Feature) (st : ImportNew.St), InvKeys st →
      InvKeys (ImportNew.featuresLoop target ora brand st fs).1 := by
  intro fs
  induction fs with
  | nil => intro st h; exact h
  | cons f rest ih =>
    intro st h
    unfold ImportNew.featuresLoop
    have hstep := featureStep_invKeys target ora brand st f h
    rcases hres : ImportNew.featureStep target ora brand st f with ⟨st', exc⟩
    rw [hres] at hstep
    cases exc
    · exact ih st' hstep
    · exact hstep

theorem brandStep_invKeys (target : Option (List String)) (ora : List Bool)
    (st : ImportNew.St) (b : String × FetchResult) (h : InvKeys st) :
    InvKeys (ImportNew.brandStep target ora st b) := by
  unfold ImportNew.brandStep
  split
  · exact h
  · split
    · rename_i fs heq
      have hloop := featuresLoop_invKeys target ora b.1 fs st h
      rcases hres : ImportNew.featuresLoop target ora b.1 st fs with ⟨st', exc⟩
      rw [hres] at hloop
      cases exc
      · exact hloop
      · exact hloop
    · split
      · exact h
      · exact h
    · exact h

theorem brandsLoop_invKeys (target : Option (List String)) (ora : List Bool) :
    ∀ (bs : List (String × FetchResult)) (st : ImportNew.St), InvKeys st →
      InvKeys (ImportNew.brandsLoop target ora st bs) := by
  intro bs
  induction bs with
  | nil => intro st h; exact h
  | cons b rest ih =>
    intro st h
    exact ih _ (brandStep_invKeys target ora st b h)

theorem finalFlush_invKeys (ora : List Bool) (st : ImportNew.St)
    (h : InvKeys st) : InvKeys (ImportNew.finalFlush ora st) := by
  unfold ImportNew.finalFlush
  split
  · exact h
  · split
    · exact h
    · exact h

theorem run_invKeys (target : Option (List String)) (ora : List Bool)
    (existing : List String) (brands : List (String × FetchResult)) :
    InvKeys (ImportNew.run target ora existing brands) := by
  apply finalFlush_invKeys
  apply brandsLoop_invKeys
  constructor
  · intro r hr
    exact absurd hr (List.not_mem_nil r)
  · intro K
    simp [countKey, ImportNew.initState]

/-- A feature with key `aldi:stop:47906` but no geometry (rejected after the
duplicate check, without marking its key). -/
def stopNoGeomFeature : Feature :=
  { properties := [("name", "Stop"), ("postcode", "47906")]
    coordinates := none }

/-- A valid feature with key `aldi:stop:47906`. -/
def stopGeomFeature : Feature :=
  { properties := [("name", "Stop"), ("postcode", "47906")]
    coordinates := some ["-86.9", "40.4"] }

/-- C7 counterexample: when the first feature of a same-key pair is rejected
for missing geometry, its key is never marked, so the second feature is
retained (not the first) and `duplicates_skipped` stays 0 — refuting "only
the first such feature is retained as a new store; every subsequent one
increments duplicates_skipped by exactly 1". -/
theorem c7_counterexample_first_feature_not_retained :
    (ImportNew.run none [] []
        [("aldi", FetchResult.success [stopNoGeomFeature, stopGeomFeature])]
      ).stats.duplicates_skipped = 0 ∧
    (ImportNew.run none [] []
        [("aldi", FetchResult.success [stopNoGeomFeature, stopGeomFeature])]
      ).stats.no_geometry = 1 ∧
    (ImportNew.run none [] []
        [("aldi", FetchResult.success [stopNoGeomFeature, stopGeomFeature])]
      ).stats.new_stores = 1 ∧
    (ImportNew.insertedRecords (ImportNew.run none [] []
        [("aldi", FetchResult.success [stopNoGeomFeature, stopGeomFeature])])
      ).map (fun r => r.geom) = ["POINT(-86.9 40.4)"] := by
  decide

/-- C7 amended: a feature whose key is already in the in-memory set
increments `duplicates_skipped` by exactly 1 and contributes nothing; over
any whole run at most one accepted record carries any given composite key
(so, among same-key features, at most one — the first one to pass the
name/ZIP/target/geometry checks — is retained); and submitting the same
valid feature twice in one run yields `new_stores == 1` and
`duplicates_skipped == 1`. A same-key feature that is rejected before
acceptance (for example for missing geometry) does not mark the key and is
not counted as a duplicate. -/
theorem c7_deduplication_amended :
    (∀ (target : Option (List String)) (ora : List Bool) (brand : String)
       (st : ImportNew.St) (f : Feature),
       featName f ≠ "" → featZip f ≠ "" →
       ImportNew.targetRejects target (featZip f) = false →
       ImportNew.featKey brand f ∈ st.existing_stores →
       ImportNew.featureStep target ora brand st f =
         ({ st with stats := { st.stats with
             duplicates_skipped := st.stats.duplicates_skipped + 1 } },
          false)) ∧
    (∀ (target : Option (List String)) (ora : List Bool)
       (existing : List String) (brands : List (String × FetchResult))
       (K : String),
       countKey (ImportNew.run target ora existing brands).allAccepted K
         ≤ 1) ∧
    ((ImportNew.run none [] []
        [("aldi", FetchResult.success [stopGeomFeature, stopGeomFeature])]
      ).stats.new_stores = 1 ∧
     (ImportNew.run none [] []
        [("aldi", FetchResult.success [stopGeomFeature, stopGeomFeature])]
      ).stats.duplicates_skipped = 1 ∧
     (ImportNew.insertedRecords (ImportNew.run none [] []
        [("aldi", FetchResult.success [stopGeomFeature, stopGeomFeature])])
      ).length = 1) := by
  refine ⟨?_, ?_, by decide⟩
  · intro target ora brand st f h1 h2 h3 h4
    unfold ImportNew.featureStep
    rw [if_neg (by simp [h1, h2])]
    rw [h3]
    simp only [Bool.false_eq_true, if_false]
    rw [if_pos h4]
  · intro target ora existing brands K
    exact (run_invKeys target ora existing brands).2 K

/-- C7 witness: the duplicate-step equation applied at a concrete state
whose key set already holds `aldi:stop:47906`. -/
theorem c7_deduplication_witness :
    ImportNew.featureStep none [] "aldi"
        (ImportNew.initState ["aldi:stop:47906"]) stopGeomFeature =
      ({ ImportNew.initState ["aldi:stop:47906"] with
          stats := { (ImportNew.initState ["aldi:stop:47906"]).stats with
            duplicates_skipped :=
              (ImportNew.initState
                ["aldi:stop:47906"]).stats.duplicates_skipped + 1 } },
       false) :=
  c7_deduplication_amended.1 none [] "aldi"
    (ImportNew.initState ["aldi:stop:47906"]) stopGeomFeature
    (by decide) (by decide) (by decide) (by decide)

/-- A minimal valid feature named "s" in ZIP `Nat.repr i` at the origin. -/
def numberedFeature (i : Nat) : Feature :=
  { properties := [("name", "s"), ("postcode", Nat.repr i)]
    coordinates := some ["0", "0"] }

/-- One hundred distinct-key features (ZIPs "0" … "99"): exactly one full
insert batch. -/
def batchFeatures : List Feature := (List.range 100).map numberedFeature

/-- The C5 run: brand aldi streams one full batch whose insert call fails
(oracle `[false]`); brand kroger then streams one more feature. -/
def c5Run : ImportNew.St :=
  ImportNew.run none [false] []
    [("aldi", FetchResult.success batchFeatures),
     ("kroger", FetchResult.success [numberedFeature 200])]

/-- C5 counterexample: after the mid-run batch insert fails, the accumulator
is NOT cleared, so the very next insert call (triggered while processing the
next brand) re-submits all 100 records of the failed batch plus the new
record — refuting "its records are not retried in any later insert call of
the same run". The error counter is incremented once and the later batch
still commits. -/
theorem c5_counterexample_failed_batch_is_retried :
    c5Run.attempts.map (fun a => a.2) = [false, true] ∧
    c5Run.stats.errors = 1 ∧
    (c5Run.attempts.getD 0 ([], true)).1.length = 100 ∧
    (c5Run.attempts.getD 1 ([], true)).1 =
      (c5Run.attempts.getD 0 ([], true)).1 ++
        [mkStoreRecord "kroger" "s" none "" "" "200" "0" "0"] := by
  decide

theorem featureStep_mono_existing (target : Option (List String))
    (ora : List Bool) (brand : String) (st : ImportNew.St) (f : Feature)
    (k : String) (h : k ∈ st.existing_stores) :
    k ∈ (ImportNew.featureStep target ora brand st f).1.existing_stores := by
  unfold ImportNew.featureStep
  dsimp only
  split
  · exact h
  · split
    · exact h
    · split
      · exact h
      · split
        · split
          · split
            · exact List.mem_append_left _ h
            · exact List.mem_append_left _ h
          · exact List.mem_append_left _ h
        · exact h

theorem featuresLoop_mono_existing (target : Option (List String))
    (ora : List Bool) (brand : String) :
    ∀ (fs : List Feature) (st : ImportNew.St) (k : String),
      k ∈ st.existing_stores →
      k ∈ (ImportNew.featuresLoop target ora brand st fs).1.existing_stores := by
  intro fs
  induction fs with
  | nil => intro st k h; exact h
  | cons f rest ih =>
    intro st k h
    unfold ImportNew.featuresLoop
    have hstep := featureStep_mono_existing target ora brand st f k h
    rcases hres : ImportNew.featureStep target ora brand st f with ⟨st', exc⟩
    rw [hres] at hstep
    cases exc
    · exact ih st' k hstep
    · exact hstep

theorem brandStep_mono_existing (target : Option (List String))
    (ora : List Bool) (st : ImportNew.St) (b : String × FetchResult)
    (k : String) (h : k ∈ st.existing_stores) :
    k ∈ (ImportNew.brandStep target ora st b).existing_stores := by
  unfold ImportNew.brandStep
  split
  · exact h
  · split
    · rename_i fs heq
      have hloop := featuresLoop_mono_existing target ora b.1 fs st k h
      rcases hres : ImportNew.featuresLoop target ora b.1 st fs with ⟨st', exc⟩
      rw [hres] at hloop
      cases exc
      · exact hloop
      · exact hloop
    · split
      · exact h
      · exact h
    · exact h

theorem brandsLoop_mono_existing (target : Option (List String))
    (ora : List Bool) :
    ∀ (bs : List (String × FetchResult)) (st : ImportNew.St) (k : String),
      k ∈ st.existing_stores →
      k ∈ (ImportNew.brandsLoop target ora st bs).existing_stores := by
  intro bs
  induction bs with
  | nil => intro st k h; exact h
  | cons b rest ih =>
    intro st k h
    exact ih _ k (brandStep_mono_existing target ora st b k h)

/-- C5 amended: when the accumulator reaches the batch size and the insert
call fails, the run raises after recording the failed call — the error
counter is then incremented once at the brand level, the batch stays in the
accumulator (it is NOT abandoned: its records are re-submitted by the next
insert call, as `c5Run` shows concretely), and subsequent batches still
attempt to commit; moreover no queued record is ever dropped except into an
attempted insert call. -/
theorem c5_batch_failure_amended :
    (∀ (target : Option (List String)) (ora : List Bool) (brand : String)
       (st : ImportNew.St) (f : Feature) (lon lat : String),
       featName f ≠ "" → featZip f ≠ "" →
       ImportNew.targetRejects target (featZip f) = false →
       ImportNew.featKey brand f ∉ st.existing_stores →
       f.coordinates = some [lon, lat] →
       ImportNew.BATCH_SIZE ≤ st.stores_to_insert.length + 1 →
       ora.getD st.insertCalls true = false →
       ImportNew.featureStep target ora brand st f =
         ({ st with
             stores_to_insert := st.stores_to_insert ++
               [mkStoreRecord brand (featName f)
                 (streetAddressOf (featHousenumber f) (featStreet f))
                 (featCity f) (featState f) (featZip f) lon lat]
             existing_stores :=
               st.existing_stores ++ [ImportNew.featKey brand f]
             allAccepted := st.allAccepted ++
               [mkStoreRecord brand (featName f)
                 (streetAddressOf (featHousenumber f) (featStreet f))
                 (featCity f) (featState f) (featZip f) lon lat]
             attempts := st.attempts ++
               [(st.stores_to_insert ++
                   [mkStoreRecord brand (featName f)
                     (streetAddressOf (featHousenumber f) (featStreet f))
                     (featCity f) (featState f) (featZip f) lon lat],
                 false)]
             insertCalls := st.insertCalls + 1 }, true)) ∧
    (∀ (target : Option (List String)) (ora : List Bool) (st : ImportNew.St)
       (brand sp : String) (fs : List Feature),
       dictGet ImportNew.ENUM_TO_SPIDER brand = some sp →
       (ImportNew.featuresLoop target ora brand st fs).2 = true →
       ImportNew.brandStep target ora st (brand, FetchResult.success fs) =
         ImportNew.bumpErrors
           (ImportNew.featuresLoop target ora brand st fs).1) ∧
    (∀ (target : Option (List String)) (ora : List Bool) (brand : String)
       (st : ImportNew.St) (f : Feature) (r : StoreRecord),
       r ∈ st.stores_to_insert →
       r ∈ (ImportNew.featureStep target ora brand st f).1.stores_to_insert ∨
       ∃ batch ok,
         (ImportNew.featureStep target ora brand st f).1.attempts =
           st.attempts ++ [(batch, ok)] ∧ r ∈ batch) := by
  refine ⟨?_, ?_, ?_⟩
  · intro target ora brand st f lon lat h1 h2 h3 h4 h5 h6 h7
    unfold ImportNew.featureStep
    dsimp only
    rw [if_neg (by simp [h1, h2]), h3]
    simp only [Bool.false_eq_true, if_false]
    rw [if_neg h4, h5]
    dsimp only
    rw [if_pos (by simpa using h6), h7]
    simp only [Bool.false_eq_true, if_false]
  · intro target ora st brand sp fs hsp hexc
    unfold ImportNew.brandStep
    rw [hsp]
    dsimp only
    rcases hres : ImportNew.featuresLoop target ora brand st fs with ⟨st', exc⟩
    rw [hres] at hexc
    simp only at hexc
    subst hexc
    rfl
  · intro target ora brand st f r hr
    unfold ImportNew.featureStep
    dsimp only
    split
    · exact Or.inl hr
    · split
      · exact Or.inl hr
      · split
        · exact Or.inl hr
        · split
          · split
            · split
              · exact Or.inr ⟨_, true, rfl, List.mem_append_left _ hr⟩
              · exact Or.inl (List.mem_append_left _ hr)
            · exact Or.inl (List.mem_append_left _ hr)
          · exact Or.inl hr

/-- C5 witness: the failed-flush step equation applied at the concrete state
holding the first 99 accepted records, and the brand-level error increment
applied to the full aldi stream. -/
theorem c5_batch_failure_witness :
    (ImportNew.featureStep none [false] "aldi"
        (ImportNew.featuresLoop none [false] "aldi" (ImportNew.initState [])
          (batchFeatures.take 99)).1 (numberedFeature 99) =
      ({ (ImportNew.featuresLoop none [false] "aldi" (ImportNew.initState [])
            (batchFeatures.take 99)).1 with
          stores_to_insert :=
            (ImportNew.featuresLoop none [false] "aldi"
              (ImportNew.initState []) (batchFeatures.take 99)).1.stores_to_insert
              ++ [mkStoreRecord "aldi" (featName (numberedFeature 99))
                    (streetAddressOf (featHousenumber (numberedFeature 99))
                      (featStreet (numberedFeature 99)))
                    (featCity (numberedFeature 99))
                    (featState (numberedFeature 99))
                    (featZip (numberedFeature 99)) "0" "0"]
          existing_stores :=
            (ImportNew.featuresLoop none [false] "aldi"
              (ImportNew.initState []) (batchFeatures.take 99)).1.existing_stores
              ++ [ImportNew.featKey "aldi" (numberedFeature 99)]
          allAccepted :=
            (ImportNew.featuresLoop none [false] "aldi"
              (ImportNew.initState []) (batchFeatures.take 99)).1.allAccepted
              ++ [mkStoreRecord "aldi" (featName (numberedFeature 99))
                    (streetAddressOf (featHousenumber (numberedFeature 99))
                      (featStreet (numberedFeature 99)))
                    (featCity (numberedFeature 99))
                    (featState (numberedFeature 99))
                    (featZip (numberedFeature 99)) "0" "0"]
          attempts :=
            (ImportNew.featuresLoop none [false] "aldi"
              (ImportNew.initState []) (batchFeatures.take 99)).1.attempts
              ++ [((ImportNew.featuresLoop none [false] "aldi"
                    (ImportNew.initState [])
                    (batchFeatures.take 99)).1.stores_to_insert
                  ++ [mkStoreRecord "aldi" (featName (numberedFeature 99))
                        (streetAddressOf
                          (featHousenumber (numberedFeature 99))
                          (featStreet (numberedFeature 99)))
                        (featCity (numberedFeature 99))
                        (featState (numberedFeature 99))
                        (featZip (numberedFeature 99)) "0" "0"],
                  false)]
          insertCalls :=
            (ImportNew.featuresLoop none [false] "aldi"
              (ImportNew.initState []) (batchFeatures.take 99)).1.insertCalls
              + 1 }, true)) :=
  c5_batch_failure_amended.1 none [false] "aldi"
    (ImportNew.featuresLoop none [false] "aldi" (ImportNew.initState [])
      (batchFeatures.take 99)).1 (numberedFeature 99) "0" "0"
    (by decide) (by decide) (by decide) (by decide) (by decide) (by decide)
    (by decide)

/-- The C10 feature stream: a key-300 feature, a same-key duplicate, 99
fresh features (the last of which completes a batch whose insert fails), and
a trailing same-key feature that the raised exception prevents from being
processed. -/
def c10Feats : List Feature :=
  [numberedFeature 300, numberedFeature 300] ++
    (List.range 99).map numberedFeature ++ [numberedFeature 300]

/-- The C10 run: every insert call fails, so no row is ever persisted. -/
def c10Run : ImportNew.St :=
  ImportNew.run none [false, false] []
    [("aldi", FetchResult.success c10Feats)]

/-- C10 counterexample: the stream holds two later features with the key of
an accepted record whose batch insert fails; only the one processed before
the failure is counted (`duplicates_skipped = 1`, not 2), because the
exception aborts the brand's remaining stream — refuting "every later
feature in the same run with the same key is still counted as
duplicates_skipped". The key itself stays marked and nothing is persisted. -/
theorem c10_counterexample_post_failure_duplicate_not_counted :
    c10Run.stats.duplicates_skipped = 1 ∧
    c10Run.stats.errors = 2 ∧
    ImportNew.insertedRecords c10Run = [] ∧
    countKey c10Run.allAccepted "aldi:s:300" = 1 ∧
    "aldi:s:300" ∈ c10Run.existing_stores := by
  decide

/-- C10 amended: an accepted candidate's key enters the in-memory
existing-keys set at queue time — even when that very acceptance triggers a
failing insert call — and the set only ever grows, so every later feature
*that the run still processes* with the same key is counted as
duplicates_skipped and contributes nothing (a feature in the failing brand's
stream after the raised insert exception is skipped entirely, neither
counted nor re-queued); this holds even though no row for the key was ever
persisted, as the concrete failing run shows. -/
theorem c10_key_marked_at_queue_time_amended :
    (∀ (target : Option (List String)) (ora : List Bool) (brand : String)
       (st : ImportNew.St) (f : Feature) (lon lat : String),
       featName f ≠ "" → featZip f ≠ "" →
       ImportNew.targetRejects target (featZip f) = false →
       ImportNew.featKey brand f ∉ st.existing_stores →
       f.coordinates = some [lon, lat] →
       ImportNew.featKey brand f ∈
         (ImportNew.featureStep target ora brand st f).1.existing_stores) ∧
    (∀ (target : Option (List String)) (ora : List Bool)
       (bs : List (String × FetchResult)) (st : ImportNew.St) (k : String),
       k ∈ st.existing_stores →
       k ∈ (ImportNew.brandsLoop target ora st bs).existing_stores) ∧
    (∀ (target : Option (List String)) (ora : List Bool) (brand : String)
       (st : ImportNew.St) (f : Feature),
       featName f ≠ "" → featZip f ≠ "" →
       ImportNew.targetRejects target (featZip f) = false →
       ImportNew.featKey brand f ∈ st.existing_stores →
       ImportNew.featureStep target ora brand st f =
         ({ st with stats := { st.stats with
             duplicates_skipped := st.stats.duplicates_skipped + 1 } },
          false)) ∧
    (countKey c10Run.allAccepted "aldi:s:300" = 1 ∧
     ImportNew.insertedRecords c10Run = []) := by
  refine ⟨?_, ?_, ?_, by decide⟩
  · intro target ora brand st f lon lat h1 h2 h3 h4 h5
    unfold ImportNew.featureStep
    dsimp only
    rw [if_neg (by simp [h1, h2]), h3]
    simp only [Bool.false_eq_true, if_false]
    rw [if_neg h4, h5]
    dsimp only
    split
    · split
      · exact List.mem_append_right _ (List.mem_singleton.mpr rfl)
      · exact List.mem_append_right _ (List.mem_singleton.mpr rfl)
    · exact List.mem_append_right _ (List.mem_singleton.mpr rfl)
  · intro target ora bs st k h
    exact brandsLoop_mono_existing target ora bs st k h
  · intro target ora brand st f h1 h2 h3 h4
    unfold ImportNew.featureStep
    rw [if_neg (by simp [h1, h2])]
    rw [h3]
    simp only [Bool.false_eq_true, if_false]
    rw [if_pos h4]

/-- C10 witness: acceptance inserts the key immediately, at the concrete
empty initial state and key-300 feature. -/
theorem c10_key_marked_witness :
    ImportNew.featKey "aldi" (numberedFeature 300) ∈
      (ImportNew.featureStep none [] "aldi" (ImportNew.initState [])
        (numberedFeature 300)).1.existing_stores :=
  c10_key_marked_at_queue_time_amended.1 none [] "aldi"
    (ImportNew.initState []) (numberedFeature 300) "0" "0"
    (by decide) (by decide) (by decide) (by decide) (by decide)

namespace GeoScraper

/-- `MAX_BATCH_SIZE = 100` in geoscraper.py. -/
def MAX_BATCH_SIZE : Nat := 100

/-- A `grocery_stores` row as returned by the pre-load query
(`select store_enum, name, zip_code, address`); nullable columns are
`Option`. -/
structure StoreRow where
  store_enum : String
  name : Option String
  zip_code : Option String
  address : Option String
deriving DecidableEq

/-- geoscraper.py `fetch_existing_store_keys`: pre-load the composite keys of
existing rows and the `(brand, zip)` pairs that already have an address-less
store (`if not store.get("address")`, with `store.get("zip_code") or ""`).
The key is built with the build_store_key imported from import_new_stores;
a `None` name or ZIP is falsy there and normalizes to `""`, which `getD ""`
reproduces. The Python collections are sets queried by membership only, so
the lists here carry their contents (element order is immaterial). -/
def fetch_existing_store_keys : List StoreRow →
    List String × List (String × String)
  | [] => ([], [])
  | store :: rest =>
    let acc := fetch_existing_store_keys rest
    let key := ImportNew.build_store_key store.store_enum
      (store.name.getD "") (store.zip_code.getD "")
    if (store.address.getD "") = "" then
      (key :: acc.1, (store.store_enum, store.zip_code.getD "") :: acc.2)
    else (key :: acc.1, acc.2)

/-- State of one `run_geoscraper` run (dry_run = False); fields as in the
import-run state plus the address-less `(brand, zip)` collision-pair set. -/
structure St where
  stats : RunStats
  existing_stores : List String
  existing_null_address_pairs : List (String × String)
  stores_to_insert : List StoreRecord
  attempts : List (List StoreRecord × Bool)
  insertCalls : Nat
  zips_with_stores : List (String × Nat)
  allAccepted : List StoreRecord
deriving DecidableEq

/-- Increment `stats["errors"]`. -/
def bumpErrors (st : St) : St :=
  { st with stats := { st.stats with errors := st.stats.errors + 1 } }

/-- One iteration of the feature loop of run_geoscraper (lines 169-229):
like the import run's, but the target-ZIP check is unconditional and an
address-less candidate whose `(brand, zip)` pair is already occupied is
skipped as a duplicate; on acceptance of an address-less candidate the pair
is marked occupied. `insert_batch` commits the batch (success bumps
new_stores and the ZIP tracking before the accumulator is cleared; failure
raises before either). -/
def featureStep (target : List String) (ora : List Bool)
    (brand_enum : String) (st : St) (f : Feature) : St × Bool :=
  let name := featName f
  let zip_code := featZip f
  if name = "" ∨ zip_code = "" then (st, false)
  else if zip_code ∉ target then
    ({ st with stats :=
        { st.stats with wrong_zipcode := st.stats.wrong_zipcode + 1 } }, false)
  else if ImportNew.featKey brand_enum f ∈ st.existing_stores then
    ({ st with stats :=
        { st.stats with
          duplicates_skipped := st.stats.duplicates_skipped + 1 } }, false)
  else
    match f.coordinates with
    | some [lon, lat] =>
      let street_address :=
        streetAddressOf (featHousenumber f) (featStreet f)
      let null_address_pair := (brand_enum, zip_code)
      if street_address = none ∧
          null_address_pair ∈ st.existing_null_address_pairs then
        ({ st with stats :=
            { st.stats with
              duplicates_skipped := st.stats.duplicates_skipped + 1 } },
         false)
      else
        let st0 :=
          if street_address = none then
            { st with existing_null_address_pairs :=
                st.existing_null_address_pairs ++ [null_address_pair] }
          else st
        let store_record := mkStoreRecord brand_enum name street_address
          (featCity f) (featState f) zip_code lon lat
        let st1 := { st0 with
          stores_to_insert := st0.stores_to_insert ++ [store_record]
          existing_stores :=
            st0.existing_stores ++ [ImportNew.featKey brand_enum f]
          allAccepted := st0.allAccepted ++ [store_record] }
        if MAX_BATCH_SIZE ≤ st1.stores_to_insert.length then
          let batch := st1.stores_to_insert
          if ora.getD st1.insertCalls true then
            ({ st1 with
               attempts := st1.attempts ++ [(batch, true)]
               insertCalls := st1.insertCalls + 1
               stats := { st1.stats with
                 new_stores := st1.stats.new_stores + batch.length }
               zips_with_stores :=
                 ImportNew.record_inserted_zips batch st1.zips_with_stores
               stores_to_insert := [] }, false)
          else
            ({ st1 with
               attempts := st1.attempts ++ [(batch, false)]
               insertCalls := st1.insertCalls + 1 }, true)
        else (st1, false)
    | _ =>
      ({ st with stats :=
          { st.stats with no_geometry := st.stats.no_geometry + 1 } }, false)

/-- The feature loop; a raised insert exception aborts the stream. -/
def featuresLoop (target : List String) (ora : List Bool)
    (brand_enum : String) : St → List Feature → St × Bool
  | st, [] => (st, false)
  | st, f :: rest =>
    match featureStep target ora brand_enum st f with
    | (st', true) => (st', true)
    | (st', false) => featuresLoop target ora brand_enum st' rest

/-- One brand iteration of run_geoscraper (lines 151-250): unmapped brands
are skipped; every raised exception (HTTP, network, or the insert exception
caught by the generic handler) increments `errors`. -/
def brandStep (target : List String) (ora : List Bool) (st : St)
    (b : String × FetchResult) : St :=
  match dictGet ImportNew.ENUM_TO_SPIDER b.1 with
  | none => st
  | some _ =>
    match b.2 with
    | .success fs =>
      match featuresLoop target ora b.1 st fs with
      | (st', true) => bumpErrors st'
      | (st', false) => st'
    | .httpError _ => bumpErrors st
    | .networkError => bumpErrors st

/-- The brand loop. -/
def brandsLoop (target : List String) (ora : List Bool) :
    St → List (String × FetchResult) → St
  | st, [] => st
  | st, b :: rest => brandsLoop target ora (brandStep target ora st b) rest

/-- The final `if stores_to_insert: insert_batch(...)` (line 252-253): this
call is not wrapped in a try, so a failure crashes the run (flag `true`). -/
def finalInsert (ora : List Bool) (st : St) : St × Bool :=
  if st.stores_to_insert = [] then (st, false)
  else
    let batch := st.stores_to_insert
    if ora.getD st.insertCalls true then
      ({ st with
         attempts := st.attempts ++ [(batch, true)]
         insertCalls := st.insertCalls + 1
         stats := { st.stats with
           new_stores := st.stats.new_stores + batch.length }
         zips_with_stores :=
           ImportNew.record_inserted_zips batch st.zips_with_stores
         stores_to_insert := [] }, false)
    else
      ({ st with
         attempts := st.attempts ++ [(batch, false)]
         insertCalls := st.insertCalls + 1 }, true)

/-- The initial state seeded by `fetch_existing_store_keys`. -/
def initState (rows : List StoreRow) : St :=
  { stats := initStats
    existing_stores := (fetch_existing_store_keys rows).1
    existing_null_address_pairs := (fetch_existing_store_keys rows).2
    stores_to_insert := [], attempts := [], insertCalls := 0
    zips_with_stores := [], allAccepted := [] }

/-- One `run_geoscraper` run over the given brands and fetch outcomes
(dry_run = False; the scraped-ZIP upserts afterwards are side-effect-only
and not modelled). An empty target set returns immediately. -/
def run (target : List String) (ora : List Bool) (rows : List StoreRow)
    (brands : List (String × FetchResult)) : St × Bool :=
  if target = [] then (initState rows, false)
  else finalInsert ora (brandsLoop target ora (initState rows) brands)

end GeoScraper

/-- How many records in a list are address-less stores of the given brand
and ZIP. -/
def addresslessCount (recs : List StoreRecord) (brand zip : String) : Nat :=
  recs.countP (fun r =>
    decide (r.store_enum = brand ∧ r.address = none ∧ r.zip_code = zip))

/-- How many pre-existing rows are address-less stores of the given brand
and ZIP (address empty-or-null, `zip_code or ""` as the pair key). -/
def addresslessRowCount (rows : List GeoScraper.StoreRow)
    (brand zip : String) : Nat :=
  rows.countP (fun r =>
    decide (r.store_enum = brand ∧ (r.address.getD "") = "" ∧
      r.zip_code.getD "" = zip))

/-- A valid feature named "A" in ZIP 47906 with no street address. -/
def addresslessFeatureA : Feature :=
  { properties := [("name", "A"), ("postcode", "47906")]
    coordinates := some ["0", "0"] }

/-- A valid feature named "B" in ZIP 47906 with no street address. -/
def addresslessFeatureB : Feature :=
  { properties := [("name", "B"), ("postcode", "47906")]
    coordinates := some ["0", "0"] }

/-- C1 counterexample: the batch import run (import_new_stores.py) performs
no address-less collision check at all, so one run inserts two address-less
aldi stores in ZIP 47906 — refuting "no run ever inserts a second
address-less store for the same brand and ZIP". -/
theorem c1_counterexample_import_run_inserts_two_addressless :
    addresslessCount
      (ImportNew.insertedRecords (ImportNew.run none [] []
        [("aldi",
          FetchResult.success [addresslessFeatureA, addresslessFeatureB])]))
      "aldi" "47906" = 2 := by
  decide

theorem addresslessCount_append (A : List StoreRecord) (r0 : StoreRecord)
    (brand zip : String) :
    addresslessCount (A ++ [r0]) brand zip =
      addresslessCount A brand zip +
        (if r0.store_enum = brand ∧ r0.address = none ∧ r0.zip_code = zip
          then 1 else 0) := by
  simp only [addresslessCount, List.countP_append, List.countP_cons,
    List.countP_nil]
  by_cases h : r0.store_enum = brand ∧ r0.address = none ∧ r0.zip_code = zip
  · simp [h]
  · simp [h]

/-- Address-less-pair invariant of a geoscraper run state relative to the
pre-existing rows: every `(brand, zip)` pair has at most one address-less
store among pre-existing rows plus accepted records, and every occupied
pair is marked in the in-memory collision-pair set. -/
def InvPairs (rows : List GeoScraper.StoreRow) (st : GeoScraper.St) : Prop :=
  ∀ brand zip,
    (addresslessRowCount rows brand zip +
      addresslessCount st.allAccepted brand zip ≤ 1) ∧
    (1 ≤ addresslessRowCount rows brand zip +
        addresslessCount st.allAccepted brand zip →
      (brand, zip) ∈ st.existing_null_address_pairs)

theorem fetch_pairs_complete :
    ∀ (rows : List GeoScraper.StoreRow) (brand zip : String),
      1 ≤ addresslessRowCount rows brand zip →
      (brand, zip) ∈ (GeoScraper.fetch_existing_store_keys rows).2 := by
  intro rows
  induction rows with
  | nil =>
    intro brand zip h
    simp [addresslessRowCount] at h
  | cons r rest ih =>
    intro brand zip h
    unfold GeoScraper.fetch_existing_store_keys
    dsimp only
    by_cases hr : r.store_enum = brand ∧ (r.address.getD "") = "" ∧
        r.zip_code.getD "" = zip
    · rw [if_pos hr.2.1]
      rcases hr with ⟨h1, h2, h3⟩
      rw [h1, h3]
      exact List.mem_cons_self _ _
    · have hrest : 1 ≤ addresslessRowCount rest brand zip := by
        simp only [addresslessRowCount, List.countP_cons] at h
        rcases hif : (decide (r.store_enum = brand ∧
            (r.address.getD "") = "" ∧ r.zip_code.getD "" = zip)) with _ | _
        · rw [hif] at h
          simpa [addresslessRowCount] using h
        · exact absurd (of_decide_eq_true hif) hr
      have hmem := ih brand zip hrest
      split
      · exact List.mem_cons_of_mem _ hmem
      · exact hmem

theorem invPairs_extend_addressless (rows : List GeoScraper.StoreRow)
    (st : GeoScraper.St) (brand zipv : String) (r0 : StoreRecord)
    (hb : r0.store_enum = brand) (ha : r0.address = none)
    (hz : r0.zip_code = zipv) (hInv : InvPairs rows st)
    (hnmem : (brand, zipv) ∉ st.existing_null_address_pairs) :
    ∀ b z,
      (addresslessRowCount rows b z +
        addresslessCount (st.allAccepted ++ [r0]) b z ≤ 1) ∧
      (1 ≤ addresslessRowCount rows b z +
          addresslessCount (st.allAccepted ++ [r0]) b z →
        (b, z) ∈ st.existing_null_address_pairs ++ [(brand, zipv)]) := by
  intro b z
  rw [addresslessCount_append]
  by_cases hbz : r0.store_enum = b ∧ r0.address = none ∧ r0.zip_code = z
  · have hb2 : b = brand := by rw [← hbz.1, hb]
    have hz2 : z = zipv := by rw [← hbz.2.2, hz]
    subst hb2
    subst hz2
    have h0 : addresslessRowCount rows b z +
        addresslessCount st.allAccepted b z = 0 := by
      by_contra hne
      exact hnmem ((hInv b z).2 (Nat.one_le_iff_ne_zero.mpr hne))
    rw [if_pos hbz]
    constructor
    · omega
    · intro _
      exact List.mem_append_right _ (List.mem_singleton.mpr rfl)
  · rw [if_neg hbz]
    constructor
    · have := (hInv b z).1
      omega
    · intro hge
      exact List.mem_append_left _ ((hInv b z).2 (by omega))

theorem invPairs_extend_addressful (rows : List GeoScraper.StoreRow)
    (st : GeoScraper.St) (r0 : StoreRecord) (ha : r0.address ≠ none)
    (hInv : InvPairs rows st) :
    ∀ b z,
      (addresslessRowCount rows b z +
        addresslessCount (st.allAccepted ++ [r0]) b z ≤ 1) ∧
      (1 ≤ addresslessRowCount rows b z +
          addresslessCount (st.allAccepted ++ [r0]) b z →
        (b, z) ∈ st.existing_null_address_pairs) := by
  intro b z
  rw [addresslessCount_append]
  rw [if_neg (fun hc => ha hc.2.1)]
  constructor
  · have := (hInv b z).1
    omega
  · intro hge
    exact (hInv b z).2 (by omega)

theorem geoFeatureStep_invPairs (rows : List GeoScraper.StoreRow)
    (target : List String) (ora : List Bool) (brand_enum : String)
    (st : GeoScraper.St) (f : Feature) (h : InvPairs rows st) :
    InvPairs rows (GeoScraper.featureStep target ora brand_enum st f).1 := by
  unfold GeoScraper.featureStep
  dsimp only
  split
  · exact h
  · split
    · exact h
    · split
      · exact h
      · split
        · rename_i lon lat heq
          split
          · exact h
          · rename_i hguard
            split
            · rename_i hsa
              have hnmem : (brand_enum, featZip f) ∉
                  st.existing_null_address_pairs :=
                fun hm => hguard ⟨hsa, hm⟩
              have hext := invPairs_extend_addressless rows st brand_enum
                (featZip f)
                (mkStoreRecord brand_enum (featName f)
                  (streetAddressOf (featHousenumber f) (featStreet f))
                  (featCity f) (featState f) (featZip f) lon lat)
                rfl hsa rfl h hnmem
              split
              · split
                · exact hext
                · exact hext
              · exact hext
            · rename_i hsa
              have hext := invPairs_extend_addressful rows st
                (mkStoreRecord brand_enum (featName f)
                  (streetAddressOf (featHousenumber f) (featStreet f))
                  (featCity f) (featState f) (featZip f) lon lat)
                hsa h
              split
              · split
                · exact hext
                · exact hext
              · exact hext
        · exact h

theorem geoFeaturesLoop_invPairs (rows : List GeoScraper.StoreRow)
    (target : List String) (ora : List Bool) (brand_enum : String) :
    ∀ (fs : List Feature) (st : GeoScraper.St), InvPairs rows st →
      InvPairs rows
        (GeoScraper.featuresLoop target ora brand_enum st fs).1 := by
  intro fs
  induction fs with
  | nil => intro st h; exact h
  | cons f rest ih =>
    intro st h
    unfold GeoScraper.featuresLoop
    have hstep := geoFeatureStep_invPairs rows target ora brand_enum st f h
    rcases hres : GeoScraper.featureStep target ora brand_enum st f
      with ⟨st', exc⟩
    rw [hres] at hstep
    cases exc
    · exact ih st' hstep
    · exact hstep

theorem geoBrandStep_invPairs (rows : List GeoScraper.StoreRow)
    (target : List String) (ora : List Bool) (st : GeoScraper.St)
    (b : String × FetchResult) (h : InvPairs rows st) :
    InvPairs rows (GeoScraper.brandStep target ora st b) := by
  unfold GeoScraper.brandStep
  split
  · exact h
  · split
    · rename_i fs heq
      have hloop := geoFeaturesLoop_invPairs rows target ora b.1 fs st h
      rcases hres : GeoScraper.featuresLoop target ora b.1 st fs
        with ⟨st', exc⟩
      rw [hres] at hloop
      cases exc
      · exact hloop
      · exact hloop
    · exact h
    · exact h

theorem geoBrandsLoop_invPairs (rows : List GeoScraper.StoreRow)
    (target : List String) (ora : List Bool) :
    ∀ (bs : List (String × FetchResult)) (st : GeoScraper.St),
      InvPairs rows st →
      InvPairs rows (GeoScraper.brandsLoop target ora st bs) := by
  intro bs
  induction bs with
  | nil => intro st h; exact h
  | cons b rest ih =>
    intro st h
    exact ih _ (geoBrandStep_invPairs rows target ora st b h)

theorem geoFinalInsert_invPairs (rows : List GeoScraper.StoreRow)
    (ora : List Bool) (st : GeoScraper.St) (h : InvPairs rows st) :
    InvPairs rows (GeoScraper.finalInsert ora st).1 := by
  unfold GeoScraper.finalInsert
  split
  · exact h
  · split
    · exact h
    · exact h

/-- C1 amended: the real-time geoscraper run (run_geoscraper) preserves the
address-less uniqueness invariant — starting from pre-existing rows with at
most one address-less store per `(brand, zip)`, the pre-loaded collision
pairs reject every second address-less candidate for an occupied pair and
acceptance marks the pair, so after the run every `(brand, zip)` still has
at most one address-less store among pre-existing rows plus accepted
records. The batch import run (import_new_stores.py) performs no such
check and can insert several address-less stores for one pair. -/
theorem c1_addressless_uniqueness_amended :
    ∀ (target : List String) (ora : List Bool)
      (rows : List GeoScraper.StoreRow)
      (brands : List (String × FetchResult)),
      (∀ brand zip, addresslessRowCount rows brand zip ≤ 1) →
      ∀ brand zip,
        addresslessRowCount rows brand zip +
          addresslessCount
            (GeoScraper.run target ora rows brands).1.allAccepted brand zip
          ≤ 1 := by
  intro target ora rows brands hrows
  have hbase : InvPairs rows (GeoScraper.initState rows) := by
    intro brand zip
    constructor
    · simpa [addresslessCount, GeoScraper.initState] using hrows brand zip
    · intro hge
      have : 1 ≤ addresslessRowCount rows brand zip := by
        simpa [addresslessCount, GeoScraper.initState] using hge
      exact fetch_pairs_complete rows brand zip this
  unfold GeoScraper.run
  split
  · intro brand zip
    simpa [addresslessCount, GeoScraper.initState] using hrows brand zip
  · intro brand zip
    exact (geoFinalInsert_invPairs rows ora _
      (geoBrandsLoop_invPairs rows target ora brands _ hbase) brand zip).1

/-- C1 witness: the amended invariant at a concrete run in which two
address-less aldi candidates arrive for ZIP 47906 and only the first is
accepted. -/
theorem c1_addressless_uniqueness_witness :
    addresslessRowCount [] "aldi" "47906" +
      addresslessCount
        (GeoScraper.run ["47906"] [] []
          [("aldi",
            FetchResult.success
              [addresslessFeatureA, addresslessFeatureB])]).1.allAccepted
        "aldi" "47906" ≤ 1 :=
  c1_addressless_uniqueness_amended ["47906"] [] []
    [("aldi",
      FetchResult.success [addresslessFeatureA, addresslessFeatureB])]
    (by intro brand zip; simp [addresslessRowCount]) "aldi" "47906"

/-- Does `needle` occur as a contiguous prefix of `hay`? (structural model
of string prefix tests, kernel-reducible). -/
def listStarts : List Char → List Char → Bool
  | [], _ => true
  | _ :: _, [] => false
  | a :: as, b :: bs => decide (a = b) && listStarts as bs

/-- Python `needle in hay` substring containment on strings. -/
def strContains (hay needle : String) : Bool :=
  go needle.data hay.data
where
  go (n : List Char) : List Char → Bool
    | [] => n.isEmpty
    | c :: rest => listStarts n (c :: rest) || go n rest

/-- Python `str(x)` on an optional string: `None` prints as `"None"`. -/
def pyStr : Option String → String
  | none => "None"
  | some s => s

namespace FixGeo

/-- src/scripts/fix_missing_geo.py `ENUM_TO_SPIDER` (its own copy, same
content as the import script's). -/
def ENUM_TO_SPIDER : List (String × String) :=
  [("aldi", "aldi"), ("kroger", "kroger"), ("safeway", "safeway"),
   ("meijer", "meijer"), ("target", "target_us"),
   ("traderjoes", "trader_joes_us"), ("99ranch", "99_ranch_market"),
   ("walmart", "walmart_us"), ("wholefoods", "whole_foods_market")]

/-- A `grocery_stores` row as seen by the backfill
(`select id, store_enum, zip_code, name, failure_count, address` plus the
geometry the filters inspect); nullable columns are `Option`. -/
structure GeoStore where
  id : Nat
  store_enum : String
  zip_code : Option String
  name : String
  failure_count : Nat
  address : Option String
  geom : Option String
deriving DecidableEq

/-- The backfill's row filter `or_("geom.is.null,address.like.*centroid*")`:
null geometry, or an address containing "centroid" (SQL LIKE with `*`
wildcards; NULL addresses fail the LIKE). -/
def backfillTarget (s : GeoStore) : Bool :=
  s.geom.isNone || strContains (s.address.getD "") "centroid"

/-- The rows the backfill processes: filter plus `lt("failure_count", 3)`. -/
def selectMissing (db : List GeoStore) : List GeoStore :=
  db.filter (fun s => backfillTarget s && decide (s.failure_count < 3))

/-- The `gte("failure_count", 3)` count of permanently skipped rows. -/
def skippedCount (db : List GeoStore) : Nat :=
  (db.filter (fun s => backfillTarget s && decide (3 ≤ s.failure_count))).length

/-- `stores_with_existing_centroids`: ids of fetched rows whose address is
truthy and contains "centroid" case-insensitively. -/
def centroidsOf (missing : List GeoStore) : List Nat :=
  (missing.filter (fun s =>
    decide ((s.address.getD "") ≠ "") &&
      strContains (pyLower (s.address.getD "")) "centroid")).map
    (fun s => s.id)

/-- The brands of the grouping dict, in first-appearance order (Python dict
key order). -/
def dedupFirstAux (seen : List String) : List String → List String
  | [] => []
  | b :: rest =>
    if b ∈ seen then dedupFirstAux seen rest
    else b :: dedupFirstAux (seen ++ [b]) rest

/-- The normalized DB ZIP used to key `stores_by_zip`:
`str(store.get('zip_code', '')).split('-')[0].strip()` (a NULL column prints
as "None"). -/
def dbZip (s : GeoStore) : String := normRawZip (pyStr s.zip_code)

/-- First-occurrence association lookup (dict keys are unique). -/
def assocFind : List (String × List GeoStore) → String →
    Option (List GeoStore)
  | [], _ => none
  | p :: rest, z => if p.1 = z then some p.2 else assocFind rest z

/-- Replace the first entry with the given key. -/
def assocSet : List (String × List GeoStore) → String → List GeoStore →
    List (String × List GeoStore)
  | [], _, _ => []
  | p :: rest, z, l => if p.1 = z then (z, l) :: rest else p :: assocSet rest z l

/-- Delete the first entry with the given key (`del stores_by_zip[z]`). -/
def assocRemove : List (String × List GeoStore) → String →
    List (String × List GeoStore)
  | [], _ => []
  | p :: rest, z => if p.1 = z then rest else p :: assocRemove rest z

/-- Append a store to its ZIP bucket, creating the bucket if absent. -/
def zipInsert (idx : List (String × List GeoStore)) (z : String)
    (s : GeoStore) : List (String × List GeoStore) :=
  match assocFind idx z with
  | some bucket => assocSet idx z (bucket ++ [s])
  | none => idx ++ [(z, [s])]

/-- Build `stores_by_zip` for one brand's stores, skipping empty normalized
ZIPs. -/
def buildZipIndexAux (idx : List (String × List GeoStore)) :
    List GeoStore → List (String × List GeoStore)
  | [] => idx
  | store :: rest =>
    buildZipIndexAux
      (if dbZip store = "" then idx else zipInsert idx (dbZip store) store)
      rest

/-- `stores_by_zip` for one brand. -/
def buildZipIndex (stores : List GeoStore) : List (String × List GeoStore) :=
  buildZipIndexAux [] stores

/-- All stores remaining in the index, in bucket order
(`[store for zip_stores in stores_by_zip.values() for store in zip_stores]`). -/
def flattenIdx (idx : List (String × List GeoStore)) : List GeoStore :=
  idx.flatMap (fun p => p.2)

/-- One queued geometry update: always a `geom` point, optionally also an
`address` (only the centroid fallback ever includes one). -/
structure GeoUpdate where
  id : Nat
  geom : String
  address : Option String
deriving DecidableEq

/-- Accumulated phase-1 output: queued updates and the two match statistics. -/
structure P1St where
  updates : List GeoUpdate
  all_the_places : Nat
  centroid_upgrades : Nat
deriving DecidableEq

/-- One feature of the precise-match pass (fix_missing_geo.py lines
193-225): if the feature's normalized ZIP has a bucket and the feature has a
2-coordinate point, the first store of the bucket gets a geometry-only
update queued, the matching statistic is bumped (`centroid_upgrades` when
the store already had a centroid address, else `all_the_places`), and the
store leaves the bucket (the bucket is deleted when emptied). -/
def phase1Feature (centroids : List Nat) :
    List (String × List GeoStore) × P1St → Feature →
    List (String × List GeoStore) × P1St
  | (idx, p), f =>
    let osm_zip := featZip f
    match assocFind idx osm_zip with
    | none => (idx, p)
    | some bucket =>
      match f.coordinates with
      | some [lon, lat] =>
        match bucket with
        | [] => (idx, p)
        | store :: rest =>
          let was_centroid := store.id ∈ centroids
          (if rest = [] then assocRemove idx osm_zip
           else assocSet idx osm_zip rest,
           { updates := p.updates ++
               [⟨store.id, "POINT(" ++ lon ++ " " ++ lat ++ ")", none⟩]
             all_the_places :=
               if was_centroid then p.all_the_places
               else p.all_the_places + 1
             centroid_upgrades :=
               if was_centroid then p.centroid_upgrades + 1
               else p.centroid_upgrades })
      | _ => (idx, p)

/-- The phase-1 feature loop. -/
def phase1Features (centroids : List Nat) :
    List (String × List GeoStore) × P1St → List Feature →
    List (String × List GeoStore) × P1St
  | s, [] => s
  | s, f :: rest => phase1Features centroids (phase1Feature centroids s f) rest

/-- Phase 1 for one brand: build the ZIP index, stream the features when the
fetch succeeded (`none` models any raised fetch exception, which leaves the
index as built), and rebuild the brand's store list from the remaining
buckets (line 243) — dropping, in particular, stores whose normalized ZIP
was empty. -/
def phase1Brand (centroids : List Nat) (fetchRes : Option (List Feature))
    (stores : List GeoStore) (p : P1St) : List GeoStore × P1St :=
  let idx0 := buildZipIndex stores
  match fetchRes with
  | none => (flattenIdx idx0, p)
  | some fs =>
    let r := phase1Features centroids (idx0, p) fs
    (flattenIdx r.1, r.2)

/-- Phase 1 over all brands (first-appearance order): a brand with no
mapped spider is skipped entirely, keeping its full store list in the
queue. -/
def phase1All (centroids : List Nat) (fetch : String → Option (List Feature)) :
    List String → List GeoStore → P1St →
    List (String × List GeoStore) × P1St
  | [], _, p => ([], p)
  | b :: restBrands, missing, p =>
    let stores := missing.filter (fun s => decide (s.store_enum = b))
    match dictGet ENUM_TO_SPIDER b with
    | none =>
      let r := phase1All centroids fetch restBrands missing p
      ((b, stores) :: r.1, r.2)
    | some spider =>
      let br := phase1Brand centroids (fetch spider) stores p
      let r := phase1All centroids fetch restBrands missing br.2
      ((b, br.1) :: r.1, r.2)

/-- The literal centroid address marker `"ZIP <zip> (centroid)"`. -/
def markerStr (z : String) : String := "ZIP " ++ z ++ " (centroid)"

/-- The SQL pattern `like("address", "ZIP % (centroid)")`: prefix "ZIP ",
suffix " (centroid)", non-overlapping (total length at least 15). -/
def markerPattern (a : String) : Bool :=
  listStarts ("ZIP ".data) a.data &&
    listStarts (" (centroid)".data.reverse) a.data.reverse &&
    decide (15 ≤ a.data.length)

/-- The pre-fetched conflict set: for every brand of the queue, the
`(store_enum, zip_code, address)` triples of rows whose address matches the
centroid-marker pattern (a Python set; the list carries its contents). -/
def conflictMarkersInit (db : List GeoStore) (brands : List String) :
    List (String × Option String × String) :=
  brands.foldl
    (fun acc b =>
      acc ++ ((db.filter (fun r =>
          decide (r.store_enum = b) && markerPattern (r.address.getD ""))).map
        (fun r => (r.store_enum, r.zip_code, r.address.getD ""))))
    []

/-- Is a store's raw ZIP truthy (`if zip_code:`)? -/
def truthyZip (s : GeoStore) : Bool :=
  match s.zip_code with
  | some t => decide (t ≠ "")
  | none => false

/-- `all_zip_codes`: the truthy raw ZIPs of all queued stores (used only
for its non-emptiness guard before the conflict prefetch). -/
def all_zip_codes (queue : List (String × List GeoStore)) : List String :=
  queue.foldl
    (fun acc p =>
      acc ++ (p.2.filter truthyZip).map (fun s => s.zip_code.getD "")) []

/-- State of the ZIP-centroid fallback pass: the conflict set, the geocode
cache, a history of actual geocoding calls, the queued updates (continuing
phase 1's list), the two failure id sets, and the two statistics. -/
structure FbSt where
  conflict_markers : List (String × Option String × String)
  zip_cache : List (String × Option (String × String))
  geocode_calls : List String
  updates : List GeoUpdate
  failed_ids : List Nat
  centroid_ids : List Nat
  zip_fallback : Nat
  failed : Nat
deriving DecidableEq

/-- Cache lookup (`zip_code in zip_cache`). -/
def cacheFind (c : List (String × Option (String × String))) (z : String) :
    Option (Option (String × String)) :=
  match c with
  | [] => none
  | p :: rest => if p.1 = z then some p.2 else cacheFind rest z

/-- The tail of the fallback step after the geocode result is known
(fix_missing_geo.py lines 310-340): on coordinates, queue a geometry update
whose point is `POINT(<lng> <lat>)`, attach the address marker only when the
`(brand, zip, marker)` triple is not yet in the conflict set (and then add
the triple), bump `zip_fallback` and track the store as a centroid store; on
no coordinates, count a complete failure. -/
def fallbackResolve (brand_enum : String) (s : GeoStore) (z : String)
    (st : FbSt) (res : Option (String × String))
    (cache : List (String × Option (String × String)))
    (calls : List String) : FbSt :=
  match res with
  | some latlng =>
    let address_marker := markerStr z
    let point := "POINT(" ++ latlng.2 ++ " " ++ latlng.1 ++ ")"
    if (brand_enum, some z, address_marker) ∈ st.conflict_markers then
      { st with
        zip_cache := cache
        geocode_calls := calls
        updates := st.updates ++ [⟨s.id, point, none⟩]
        zip_fallback := st.zip_fallback + 1
        centroid_ids := st.centroid_ids ++ [s.id] }
    else
      { st with
        zip_cache := cache
        geocode_calls := calls
        conflict_markers :=
          st.conflict_markers ++ [(brand_enum, some z, address_marker)]
        updates := st.updates ++ [⟨s.id, point, some address_marker⟩]
        zip_fallback := st.zip_fallback + 1
        centroid_ids := st.centroid_ids ++ [s.id] }
  | none =>
    { st with
      zip_cache := cache
      geocode_calls := calls
      failed := st.failed + 1
      failed_ids := st.failed_ids ++ [s.id] }

/-- One store of the fallback pass (fix_missing_geo.py lines 289-340): a
falsy ZIP is a complete failure; a store that already had a centroid is left
untouched (no geocode call, no update) but tracked for the failure-count
increment; otherwise the ZIP is geocoded through the per-run cache and
resolved. -/
def fallbackStep (geo : String → Option (String × String))
    (centroids : List Nat) (brand_enum : String) (st : FbSt) (s : GeoStore) :
    FbSt :=
  match s.zip_code with
  | none =>
    { st with failed := st.failed + 1, failed_ids := st.failed_ids ++ [s.id] }
  | some z =>
    if z = "" then
      { st with
        failed := st.failed + 1
        failed_ids := st.failed_ids ++ [s.id] }
    else if s.id ∈ centroids then
      { st with centroid_ids := st.centroid_ids ++ [s.id] }
    else
      match cacheFind st.zip_cache z with
      | some r => fallbackResolve brand_enum s z st r st.zip_cache
          st.geocode_calls
      | none => fallbackResolve brand_enum s z st (geo z)
          (st.zip_cache ++ [(z, geo z)]) (st.geocode_calls ++ [z])

/-- The fallback pass over the queue, flattened to (brand, store) pairs in
brand-then-store order (a brand with an empty remainder contributes
nothing). -/
def fallbackProcess (geo : String → Option (String × String))
    (centroids : List Nat) : FbSt → List (String × GeoStore) → FbSt
  | st, [] => st
  | st, p :: rest =>
    fallbackProcess geo centroids (fallbackStep geo centroids p.1 st p.2) rest

/-- Tag every queued store with its brand. -/
def tagQueue (queue : List (String × List GeoStore)) :
    List (String × GeoStore) :=
  queue.flatMap (fun p => p.2.map (fun s => (p.1, s)))

/-- Apply one queued update: the matching row's geometry is set, and its
address only when the payload carries one. -/
def applyUpdate (db : List GeoStore) (u : GeoUpdate) : List GeoStore :=
  db.map (fun s =>
    if s.id = u.id then
      { s with
        geom := some u.geom
        address := match u.address with
          | some a => some a
          | none => s.address }
    else s)

/-- Apply the final batched updates in order. -/
def applyUpdates (db : List GeoStore) (us : List GeoUpdate) : List GeoStore :=
  us.foldl applyUpdate db

/-- Modelled from the spec: the database RPC `increment_geocoding_failures`
(not under src/, called at fix_missing_geo.py line 367) increments
`failure_count` by 1 for every store whose id is in the given set. -/
def applyIncrements (db : List GeoStore) (ids : List Nat) : List GeoStore :=
  db.map (fun s =>
    if s.id ∈ ids then { s with failure_count := s.failure_count + 1 } else s)

/-- The observable outcome of one `fix_missing_geometry` run. -/
structure RunResult where
  skipped_count : Nat
  all_the_places : Nat
  centroid_upgrades : Nat
  zip_fallback : Nat
  failed : Nat
  phase1_updates : List GeoUpdate
  batch_updates : List GeoUpdate
  failed_ids : List Nat
  centroid_ids : List Nat
  increment_ids : List Nat
  geocode_calls : List String
  final_db : List GeoStore
deriving DecidableEq

/-- One `fix_missing_geometry` run over the given database rows, dataset
fetch oracle (by spider name) and geocoding oracle (by ZIP; result is the
`(lat, lng)` pair). The early return when nothing is selected coincides with
running the empty pipeline, and the Python set union
`failed_store_ids | centroid_store_ids` is carried as a concatenation (the
increment RPC consumes it by membership). -/
def fix_missing_geometry (db : List GeoStore)
    (fetch : String → Option (List Feature))
    (geo : String → Option (String × String)) : RunResult :=
  let missing := selectMissing db
  let centroids := centroidsOf missing
  let brands := dedupFirstAux [] (missing.map (fun s => s.store_enum))
  let p1 := phase1All centroids fetch brands missing ⟨[], 0, 0⟩
  let queue2 := p1.1
  let cm0 :=
    if all_zip_codes queue2 = [] then [] else conflictMarkersInit db brands
  let fb0 : FbSt :=
    { conflict_markers := cm0, zip_cache := [], geocode_calls := []
      updates := p1.2.updates, failed_ids := [], centroid_ids := []
      zip_fallback := 0, failed := 0 }
  let fb := fallbackProcess geo centroids fb0 (tagQueue queue2)
  let increment_ids := fb.failed_ids ++ fb.centroid_ids
  let db1 := applyUpdates db fb.updates
  let db2 := applyIncrements db1 increment_ids
  { skipped_count := skippedCount db
    all_the_places := p1.2.all_the_places
    centroid_upgrades := p1.2.centroid_upgrades
    zip_fallback := fb.zip_fallback
    failed := fb.failed
    phase1_updates := p1.2.updates
    batch_updates := fb.updates
    failed_ids := fb.failed_ids
    centroid_ids := fb.centroid_ids
    increment_ids := increment_ids
    geocode_calls := fb.geocode_calls
    final_db := db2 }


theorem flattenIdx_nil : flattenIdx [] = [] := rfl

theorem flattenIdx_cons (p : String × List GeoStore)
    (rest : List (String × List GeoStore)) :
    flattenIdx (p :: rest) = p.2 ++ flattenIdx rest := by
  simp [flattenIdx]

theorem flattenIdx_append (a b : List (String × List GeoStore)) :
    flattenIdx (a ++ b) = flattenIdx a ++ flattenIdx b := by
  simp [flattenIdx]

theorem assocSet_perm (z : String) (l : List GeoStore) :
    ∀ (idx : List (String × List GeoStore)) (bucket : List GeoStore),
      assocFind idx z = some bucket →
      (flattenIdx (assocSet idx z l) ++ bucket).Perm (flattenIdx idx ++ l) := by
  intro idx
  induction idx with
  | nil => intro bucket h; simp [assocFind] at h
  | cons p rest ih =>
    intro bucket h
    unfold assocFind at h
    unfold assocSet
    by_cases hz : p.1 = z
    · rw [if_pos hz] at h
      rw [if_pos hz]
      injection h with h
      subst h
      rw [flattenIdx_cons, flattenIdx_cons]
      show ((l ++ flattenIdx rest) ++ p.2).Perm ((p.2 ++ flattenIdx rest) ++ l)
      have h1 : ((l ++ flattenIdx rest) ++ p.2).Perm
          (p.2 ++ (l ++ flattenIdx rest)) := List.perm_append_comm
      have h3 : (p.2 ++ (l ++ flattenIdx rest)).Perm
          (p.2 ++ (flattenIdx rest ++ l)) :=
        List.Perm.append_left p.2 List.perm_append_comm
      have e : (p.2 ++ flattenIdx rest) ++ l = p.2 ++ (flattenIdx rest ++ l) :=
        List.append_assoc _ _ _
      rw [e]
      exact h1.trans h3
    · rw [if_neg hz] at h
      rw [if_neg hz]
      rw [flattenIdx_cons, flattenIdx_cons]
      rw [List.append_assoc, List.append_assoc]
      exact List.Perm.append_left p.2 (ih bucket h)

theorem assocRemove_perm (z : String) :
    ∀ (idx : List (String × List GeoStore)) (bucket : List GeoStore),
      assocFind idx z = some bucket →
      (flattenIdx (assocRemove idx z) ++ bucket).Perm (flattenIdx idx) := by
  intro idx
  induction idx with
  | nil => intro bucket h; simp [assocFind] at h
  | cons p rest ih =>
    intro bucket h
    unfold assocFind at h
    unfold assocRemove
    by_cases hz : p.1 = z
    · rw [if_pos hz] at h
      rw [if_pos hz]
      injection h with h
      subst h
      rw [flattenIdx_cons]
      exact List.perm_append_comm
    · rw [if_neg hz] at h
      rw [if_neg hz]
      rw [flattenIdx_cons, flattenIdx_cons]
      rw [List.append_assoc]
      exact List.Perm.append_left p.2 (ih bucket h)

theorem zipInsert_perm (idx : List (String × List GeoStore)) (z : String)
    (s : GeoStore) :
    (flattenIdx (zipInsert idx z s)).Perm (flattenIdx idx ++ [s]) := by
  unfold zipInsert
  rcases hfind : assocFind idx z with _ | bucket
  · rw [flattenIdx_append]
    simp [flattenIdx]
  · have h := assocSet_perm z (bucket ++ [s]) idx bucket hfind
    have h2 : (flattenIdx idx ++ (bucket ++ [s])).Perm
        ((flattenIdx idx ++ [s]) ++ bucket) := by
      rw [List.append_assoc]
      exact List.Perm.append_left (flattenIdx idx) List.perm_append_comm
    have h3 := h.trans h2
    exact (List.perm_append_right_iff bucket).mp h3

theorem buildZipIndexAux_perm :
    ∀ (stores : List GeoStore) (idx : List (String × List GeoStore)),
      (flattenIdx (buildZipIndexAux idx stores)).Perm
        (flattenIdx idx ++ stores.filter (fun s => decide (¬ dbZip s = ""))) := by
  intro stores
  induction stores with
  | nil => intro idx; simp [buildZipIndexAux]
  | cons store rest ih =>
    intro idx
    unfold buildZipIndexAux
    by_cases hz : dbZip store = ""
    · rw [if_pos hz]
      have hfil : (store :: rest).filter (fun s => decide (¬ dbZip s = "")) =
          rest.filter (fun s => decide (¬ dbZip s = "")) := by
        simp [List.filter_cons, hz]
      rw [hfil]
      exact ih idx
    · rw [if_neg hz]
      have hfil : (store :: rest).filter (fun s => decide (¬ dbZip s = "")) =
          store :: rest.filter (fun s => decide (¬ dbZip s = "")) := by
        simp [List.filter_cons, hz]
      rw [hfil]
      have h1 := ih (zipInsert idx (dbZip store) store)
      have h2 := List.Perm.append_right
        (rest.filter (fun s => decide (¬ dbZip s = "")))
        (zipInsert_perm idx (dbZip store) store)
      have h3 := h1.trans h2
      rw [List.append_assoc] at h3
      exact h3

theorem buildZipIndex_perm (stores : List GeoStore) :
    (flattenIdx (buildZipIndex stores)).Perm
      (stores.filter (fun s => decide (¬ dbZip s = ""))) := by
  have h := buildZipIndexAux_perm stores []
  simpa [flattenIdx] using h

theorem phase1Feature_spec (centroids : List Nat)
    (idx : List (String × List GeoStore)) (p : P1St) (f : Feature) :
    phase1Feature centroids (idx, p) f = (idx, p) ∨
    ∃ store lon lat,
      ((flattenIdx (phase1Feature centroids (idx, p) f).1) ++ [store]).Perm
        (flattenIdx idx) ∧
      (phase1Feature centroids (idx, p) f).2.updates =
        p.updates ++
          [⟨store.id, "POINT(" ++ lon ++ " " ++ lat ++ ")", none⟩] := by
  unfold phase1Feature
  dsimp only
  rcases hfind : assocFind idx (featZip f) with _ | bucket
  · exact Or.inl rfl
  · rcases hco : f.coordinates with _ | co
    · exact Or.inl rfl
    · match co with
      | [] => exact Or.inl rfl
      | [lon] => exact Or.inl rfl
      | lon :: lat :: c :: cs => exact Or.inl rfl
      | [lon, lat] =>
        match bucket with
        | [] => exact Or.inl rfl
        | store :: rest =>
          refine Or.inr ⟨store, lon, lat, ?_, rfl⟩
          dsimp only
          by_cases hrest : rest = []
          · rw [if_pos hrest]
            subst hrest
            exact assocRemove_perm (featZip f) idx [store] hfind
          · rw [if_neg hrest]
            have h := assocSet_perm (featZip f) rest idx (store :: rest) hfind
            have e : flattenIdx idx ++ rest =
                (flattenIdx (assocSet idx (featZip f) rest) ++ [store]) ++ rest
                → True := fun _ => trivial
            have h2 : ((flattenIdx (assocSet idx (featZip f) rest) ++ [store])
                ++ rest).Perm
                (flattenIdx (assocSet idx (featZip f) rest) ++ (store :: rest))
                := by
              rw [List.append_assoc]
              exact List.Perm.refl _
            have h3 := h2.trans h
            exact (List.perm_append_right_iff rest).mp h3

theorem phase1Features_spec (centroids : List Nat) :
    ∀ (fs : List Feature) (idx : List (String × List GeoStore)) (p : P1St),
      ∃ matched added,
        (phase1Features centroids (idx, p) fs).2.updates =
          p.updates ++ added ∧
        added.map (fun u => u.id) = matched.map (fun s => s.id) ∧
        (∀ u ∈ added, u.address = none) ∧
        ((flattenIdx (phase1Features centroids (idx, p) fs).1) ++
          matched).Perm (flattenIdx idx) := by
  intro fs
  induction fs with
  | nil =>
    intro idx p
    exact ⟨[], [], by simp [phase1Features], rfl, by simp, by
      simp [phase1Features]⟩
  | cons f rest ih =>
    intro idx p
    rcases phase1Feature_spec centroids idx p f with heq | hm
    · have : phase1Features centroids (idx, p) (f :: rest) =
          phase1Features centroids (idx, p) rest := by
        unfold phase1Features
        rw [heq]
        cases rest
        · rfl
        · rfl
      rw [this]
      exact ih idx p
    · rcases hm with ⟨store, lon, lat, hperm, hupd⟩

      rcases hres : phase1Feature centroids (idx, p) f with ⟨idx1, p1⟩
      rw [hres] at hperm hupd
      have hstep : phase1Features centroids (idx, p) (f :: rest) =
          phase1Features centroids (idx1, p1) rest := by
        unfold phase1Features
        rw [hres]
        cases rest
        · rfl
        · rfl
      rw [hstep]
      rcases ih idx1 p1 with ⟨matched2, added2, h1, h2, h3, h4⟩
      refine ⟨store :: matched2,
        ⟨store.id, "POINT(" ++ lon ++ " " ++ lat ++ ")", none⟩ :: added2,
        ?_, ?_, ?_, ?_⟩
      · rw [h1, hupd, List.append_assoc]
        rfl
      · simp [h2]
      · intro u hu
        rcases List.mem_cons.mp hu with rfl | hu2
        · rfl
        · exact h3 u hu2
      · have hA : ((flattenIdx (phase1Features centroids (idx1, p1) rest).1)
            ++ (store :: matched2)).Perm
            ((flattenIdx (phase1Features centroids (idx1, p1) rest).1 ++
              matched2) ++ [store]) := by
          have hx : (store :: matched2).Perm (matched2 ++ [store]) :=
            (List.perm_append_singleton store matched2).symm
          have := List.Perm.append_left
            (flattenIdx (phase1Features centroids (idx1, p1) rest).1) hx
          rw [List.append_assoc]
          exact this
        have hB := List.Perm.append_right [store] h4
        exact hA.trans (hB.trans hperm)

theorem phase1Brand_spec (centroids : List Nat)
    (fetchRes : Option (List Feature)) (stores : List GeoStore) (p : P1St) :
    ∃ matched added,
      (phase1Brand centroids fetchRes stores p).2.updates =
        p.updates ++ added ∧
      added.map (fun u => u.id) = matched.map (fun s => s.id) ∧
      (∀ u ∈ added, u.address = none) ∧
      (((phase1Brand centroids fetchRes stores p).1 ++ matched).Perm
        (stores.filter (fun s => decide (¬ dbZip s = "")))) := by
  unfold phase1Brand
  rcases fetchRes with _ | fs
  · refine ⟨[], [], by simp, rfl, by simp, ?_⟩
    dsimp only
    rw [List.append_nil]
    exact buildZipIndex_perm stores
  · dsimp only
    rcases phase1Features_spec centroids fs (buildZipIndex stores) p with
      ⟨matched, added, h1, h2, h3, h4⟩
    exact ⟨matched, added, h1, h2, h3,
      h4.trans (buildZipIndex_perm stores)⟩

theorem dedupFirstAux_mem :
    ∀ (l seen : List String) (b : String), b ∈ l → b ∉ seen →
      b ∈ dedupFirstAux seen l := by
  intro l
  induction l with
  | nil => intro seen b h; exact absurd h (List.not_mem_nil b)
  | cons c rest ih =>
    intro seen b hb hseen
    unfold dedupFirstAux
    by_cases hc : c ∈ seen
    · rw [if_pos hc]
      rcases List.mem_cons.mp hb with rfl | hb2
      · exact absurd hc hseen
      · exact ih seen b hb2 hseen
    · rw [if_neg hc]
      rcases List.mem_cons.mp hb with rfl | hb2
      · exact List.mem_cons_self _ _
      · by_cases hbc : b = c
        · subst hbc; exact List.mem_cons_self _ _
        · refine List.mem_cons_of_mem _ (ih (seen ++ [c]) b hb2 ?_)
          intro hmem
          rcases List.mem_append.mp hmem with h1 | h2
          · exact hseen h1
          · exact hbc (List.mem_singleton.mp h2)

theorem dedupFirstAux_spec :
    ∀ (l seen : List String),
      (dedupFirstAux seen l).Nodup ∧
        ∀ b ∈ dedupFirstAux seen l, b ∉ seen := by
  intro l
  induction l with
  | nil => intro seen; exact ⟨List.nodup_nil, fun b hb => absurd hb
      (List.not_mem_nil b)⟩
  | cons c rest ih =>
    intro seen
    unfold dedupFirstAux
    by_cases hc : c ∈ seen
    · rw [if_pos hc]
      exact ih seen
    · rw [if_neg hc]
      rcases ih (seen ++ [c]) with ⟨hnd, hmem⟩
      constructor
      · refine List.nodup_cons.mpr ⟨?_, hnd⟩
        intro hcm
        exact (hmem c hcm) (List.mem_append_right _ (List.mem_singleton.mpr rfl))
      · intro b hb
        rcases List.mem_cons.mp hb with rfl | hb2
        · exact hc
        · intro hbs
          exact (hmem b hb2) (List.mem_append_left _ hbs)

theorem phase1All_updates_mono (centroids : List Nat)
    (fetch : String → Option (List Feature)) :
    ∀ (brands : List String) (missing : List GeoStore) (p : P1St),
      ∃ added,
        (phase1All centroids fetch brands missing p).2.updates =
          p.updates ++ added ∧
        ∀ u ∈ added, u.address = none ∧
          ∃ x ∈ missing, x.id = u.id ∧ x.store_enum ∈ brands := by
  intro brands
  induction brands with
  | nil => intro missing p; exact ⟨[], by simp [phase1All], by simp⟩
  | cons b rest ih =>
    intro missing p
    unfold phase1All
    rcases hsp : dictGet ENUM_TO_SPIDER b with _ | spider
    · dsimp only
      rcases ih missing p with ⟨added, h1, h2⟩
      exact ⟨added, h1, fun u hu =>
        ⟨(h2 u hu).1, by
          rcases (h2 u hu).2 with ⟨x, hx, hid, hbr⟩
          exact ⟨x, hx, hid, List.mem_cons_of_mem _ hbr⟩⟩⟩
    · dsimp only
      rcases phase1Brand_spec centroids (fetch spider)
        (missing.filter (fun s => decide (s.store_enum = b))) p with
        ⟨matched, addedb, hb1, hb2, hb3, hb4⟩
      rcases ih missing
        (phase1Brand centroids (fetch spider)
          (missing.filter (fun s => decide (s.store_enum = b))) p).2 with
        ⟨addedr, hr1, hr2⟩
      refine ⟨addedb ++ addedr, ?_, ?_⟩
      · rw [hr1, hb1, List.append_assoc]
      · intro u hu
        rcases List.mem_append.mp hu with hu1 | hu2
        · refine ⟨hb3 u hu1, ?_⟩
          have hid : u.id ∈ matched.map (fun s => s.id) := by
            rw [← hb2]
            exact List.mem_map.mpr ⟨u, hu1, rfl⟩
          rcases List.mem_map.mp hid with ⟨m, hm, hmid⟩
          have hmem : m ∈ (phase1Brand centroids (fetch spider)
              (missing.filter (fun s => decide (s.store_enum = b))) p).1 ++
              matched := List.mem_append_right _ hm
          have hmf := hb4.mem_iff.mp hmem
          have hx1 := (List.mem_filter.mp hmf).1
          have hx2 := List.mem_filter.mp hx1
          have hme : m.store_enum = b := by
            have h5 := hx2.2
            simp only [decide_eq_true_eq] at h5
            exact h5
          exact ⟨m, hx2.1, hmid, by rw [hme]; exact List.mem_cons_self _ _⟩
        · rcases hr2 u hu2 with ⟨ha, x, hx, hid, hbr⟩
          exact ⟨ha, x, hx, hid, List.mem_cons_of_mem _ hbr⟩

theorem phase1All_queue_spec (centroids : List Nat)
    (fetch : String → Option (List Feature)) :
    ∀ (brands : List String) (missing : List GeoStore) (p : P1St),
      ∀ bp ∈ (phase1All centroids fetch brands missing p).1,
        bp.1 ∈ brands ∧ ∀ x ∈ bp.2, x.store_enum = bp.1 ∧ x ∈ missing := by
  intro brands
  induction brands with
  | nil => intro missing p bp hbp; simp [phase1All] at hbp
  | cons b rest ih =>
    intro missing p bp hbp
    unfold phase1All at hbp
    rcases hsp : dictGet ENUM_TO_SPIDER b with _ | spider
    · rw [hsp] at hbp
      dsimp only at hbp
      rcases List.mem_cons.mp hbp with rfl | htail
      · refine ⟨List.mem_cons_self _ _, ?_⟩
        intro x hx
        dsimp only at hx
        have hx2 := List.mem_filter.mp hx
        have he : x.store_enum = b := by
          have h5 := hx2.2
          simp only [decide_eq_true_eq] at h5
          exact h5
        exact ⟨he, hx2.1⟩
      · rcases ih missing p bp htail with ⟨h1, h2⟩
        exact ⟨List.mem_cons_of_mem _ h1, h2⟩
    · rw [hsp] at hbp
      dsimp only at hbp
      rcases List.mem_cons.mp hbp with rfl | htail
      · refine ⟨List.mem_cons_self _ _, ?_⟩
        intro x hx
        dsimp only at hx
        rcases phase1Brand_spec centroids (fetch spider)
          (missing.filter (fun s => decide (s.store_enum = b))) p with
          ⟨matched, addedb, _, _, _, hb4⟩
        have hmem : x ∈ (phase1Brand centroids (fetch spider)
            (missing.filter (fun s => decide (s.store_enum = b))) p).1 ++
            matched := List.mem_append_left _ hx
        have hmf := hb4.mem_iff.mp hmem
        have hx1 := (List.mem_filter.mp hmf).1
        have hx2 := List.mem_filter.mp hx1
        have hme : x.store_enum = b := by
          have h5 := hx2.2
          simp only [decide_eq_true_eq] at h5
          exact h5
        exact ⟨hme, hx2.1⟩
      · rcases ih missing _ bp htail with ⟨h1, h2⟩
        exact ⟨List.mem_cons_of_mem _ h1, h2⟩

theorem geoIdInj {missing : List GeoStore}
    (hnd : (missing.map (fun x => x.id)).Nodup) :
    ∀ x ∈ missing, ∀ y ∈ missing, x.id = y.id → x = y := by
  intro x hx y hy hxy
  exact List.inj_on_of_nodup_map hnd hx hy hxy

theorem matched_mem_spec {missing : List GeoStore} {b : String}
    {leftover matched : List GeoStore}
    (hb4 : (leftover ++ matched).Perm
      ((missing.filter (fun x => decide (x.store_enum = b))).filter
        (fun x => decide (¬ dbZip x = "")))) :
    ∀ m ∈ leftover ++ matched, m ∈ missing ∧ m.store_enum = b := by
  intro m hm
  have hmf := hb4.mem_iff.mp hm
  have hx1 := (List.mem_filter.mp hmf).1
  have hx2 := List.mem_filter.mp hx1
  refine ⟨hx2.1, ?_⟩
  have h5 := hx2.2
  simp only [decide_eq_true_eq] at h5
  exact h5

theorem phase1All_matched_not_queued (centroids : List Nat)
    (fetch : String → Option (List Feature)) :
    ∀ (brands : List String) (missing : List GeoStore) (p : P1St)
      (s : GeoStore),
      (missing.map (fun x => x.id)).Nodup → brands.Nodup → s ∈ missing →
      s.id ∉ p.updates.map (fun u => u.id) →
      s.id ∈ (phase1All centroids fetch brands missing p).2.updates.map
        (fun u => u.id) →
      ∀ bp ∈ (phase1All centroids fetch brands missing p).1, s ∉ bp.2 := by
  intro brands
  induction brands with
  | nil =>
    intro missing p s _ _ _ _ _ bp hbp
    simp [phase1All] at hbp
  | cons b rest ih =>
    intro missing p s hnd hbrnd hs hnotp hin bp hbp
    unfold phase1All at hin hbp
    rcases hsp : dictGet ENUM_TO_SPIDER b with _ | spider
    · rw [hsp] at hin hbp
      dsimp only at hin hbp
      rcases List.mem_cons.mp hbp with rfl | htail
      · intro hsin
        dsimp only at hsin
        have hsb : s.store_enum = b := by
          have h5 := (List.mem_filter.mp hsin).2
          simp only [decide_eq_true_eq] at h5
          exact h5
        rcases phase1All_updates_mono centroids fetch rest missing p with
          ⟨added, h1, h2⟩
        rw [h1, List.map_append] at hin
        rcases List.mem_append.mp hin with h | h
        · exact hnotp h
        · rcases List.mem_map.mp h with ⟨u, hu, huid⟩
          rcases (h2 u hu).2 with ⟨x, hx, hxid, hxbr⟩
          have hxs : x = s := geoIdInj hnd x hx s hs (by rw [hxid, huid])
          rw [hxs, hsb] at hxbr
          exact (List.nodup_cons.mp hbrnd).1 hxbr
      · exact ih missing p s hnd (List.nodup_cons.mp hbrnd).2 hs hnotp hin
          bp htail
    · rw [hsp] at hin hbp
      dsimp only at hin hbp
      rcases phase1Brand_spec centroids (fetch spider)
        (missing.filter (fun x => decide (x.store_enum = b))) p with
        ⟨matched, addedb, hb1, hb2, hb3, hb4⟩
      have hinCopy := hin
      rcases phase1All_updates_mono centroids fetch rest missing
        (phase1Brand centroids (fetch spider)
          (missing.filter (fun x => decide (x.store_enum = b))) p).2 with
        ⟨addedr, hr1, hr2⟩
      rw [hr1, hb1, List.map_append, List.map_append] at hin
      have hSb : s.id ∈ addedb.map (fun u => u.id) →
          s ∈ matched ∧ s.store_enum = b := by
        intro hsb
        rw [hb2] at hsb
        rcases List.mem_map.mp hsb with ⟨m, hm, hmid⟩
        have hmspec := matched_mem_spec hb4 m (List.mem_append_right _ hm)
        have hms : m = s := geoIdInj hnd m hmspec.1 s hs hmid
        rw [hms] at hm hmspec
        exact ⟨hm, hmspec.2⟩
      have hSr : s.id ∈ addedr.map (fun u => u.id) → s.store_enum ∈ rest := by
        intro hsr
        rcases List.mem_map.mp hsr with ⟨u, hu, huid⟩
        rcases (hr2 u hu).2 with ⟨x, hx, hxid, hxbr⟩
        have hxs : x = s := geoIdInj hnd x hx s hs (by rw [hxid, huid])
        rw [hxs] at hxbr
        exact hxbr
      rcases List.mem_cons.mp hbp with rfl | htail
      · intro hsin
        dsimp only at hsin
        have hnodupLM : ((phase1Brand centroids (fetch spider)
            (missing.filter (fun x => decide (x.store_enum = b))) p).1 ++
            matched).Nodup := by
          have hndf : (((missing.filter
              (fun x => decide (x.store_enum = b))).filter
              (fun x => decide (¬ dbZip x = ""))).map
              (fun x => x.id)).Nodup :=
            ((List.filter_sublist _).map _).nodup
              (((List.filter_sublist _).map _).nodup hnd)
          have hne := List.Nodup.of_map _ hndf
          exact hb4.symm.nodup hne
        rcases List.mem_append.mp hin with h | h
        · rcases List.mem_append.mp h with h' | h'
          · exact hnotp h'
          · rcases hSb h' with ⟨hsm, _⟩
            exact (List.disjoint_of_nodup_append hnodupLM) hsin hsm
        · have hser := hSr h
          have hsb : s.store_enum = b :=
            (matched_mem_spec hb4 s (List.mem_append_left _ hsin)).2
          rw [hsb] at hser
          exact (List.nodup_cons.mp hbrnd).1 hser
      · by_cases hbin : s.id ∈ addedb.map (fun u => u.id)
        · rcases hSb hbin with ⟨hsm, hsb⟩
          intro hsin
          have hq := phase1All_queue_spec centroids fetch rest missing
            (phase1Brand centroids (fetch spider)
              (missing.filter (fun x => decide (x.store_enum = b))) p).2
            bp htail
          have hsbp : s.store_enum = bp.1 := (hq.2 s hsin).1
          have : b ∈ rest := by
            rw [← hsb, hsbp]
            exact hq.1
          exact (List.nodup_cons.mp hbrnd).1 this
        · refine ih missing _ s hnd (List.nodup_cons.mp hbrnd).2 hs ?_
            hinCopy bp htail
          rw [hb1, List.map_append]
          intro hmem
          rcases List.mem_append.mp hmem with h | h
          · exact hnotp h
          · exact hbin h

theorem phase1All_unmatched_queued (centroids : List Nat)
    (fetch : String → Option (List Feature)) :
    ∀ (brands : List String) (missing : List GeoStore) (p : P1St)
      (s : GeoStore),
      s ∈ missing → s.store_enum ∈ brands → ¬ dbZip s = "" →
      s.id ∉ (phase1All centroids fetch brands missing p).2.updates.map
        (fun u => u.id) →
      ∃ bp ∈ (phase1All centroids fetch brands missing p).1, s ∈ bp.2 := by
  intro brands
  induction brands with
  | nil =>
    intro missing p s _ hbr _ _
    exact absurd hbr (List.not_mem_nil _)
  | cons b rest ih =>
    intro missing p s hs hbr hz hnot
    unfold phase1All at hnot ⊢
    rcases hsp : dictGet ENUM_TO_SPIDER b with _ | spider
    · rw [hsp] at hnot
      dsimp only at hnot ⊢
      by_cases hsb : s.store_enum = b
      · refine ⟨(b, missing.filter (fun x => decide (x.store_enum = b))),
          List.mem_cons_self _ _, ?_⟩
        exact List.mem_filter.mpr ⟨hs, by simp [hsb]⟩
      · have hbr2 : s.store_enum ∈ rest := by
          rcases List.mem_cons.mp hbr with h | h
          · exact absurd h hsb
          · exact h
        rcases ih missing p s hs hbr2 hz hnot with ⟨bp, hbp, hsbp⟩
        exact ⟨bp, List.mem_cons_of_mem _ hbp, hsbp⟩
    · rw [hsp] at hnot
      dsimp only at hnot ⊢
      rcases phase1Brand_spec centroids (fetch spider)
        (missing.filter (fun x => decide (x.store_enum = b))) p with
        ⟨matched, addedb, hb1, hb2, hb3, hb4⟩
      rcases phase1All_updates_mono centroids fetch rest missing
        (phase1Brand centroids (fetch spider)
          (missing.filter (fun x => decide (x.store_enum = b))) p).2 with
        ⟨addedr, hr1, hr2⟩
      by_cases hsb : s.store_enum = b
      · have hsf : s ∈ ((missing.filter
            (fun x => decide (x.store_enum = b))).filter
            (fun x => decide (¬ dbZip x = ""))) := by
          refine List.mem_filter.mpr ⟨?_, by simp [hz]⟩
          exact List.mem_filter.mpr ⟨hs, by simp [hsb]⟩
        have hsLM := hb4.symm.mem_iff.mp hsf
        rcases List.mem_append.mp hsLM with hL | hM
        · exact ⟨(b, (phase1Brand centroids (fetch spider)
            (missing.filter (fun x => decide (x.store_enum = b))) p).1),
            List.mem_cons_self _ _, hL⟩
        · exfalso
          apply hnot
          rw [hr1, hb1, List.map_append, List.map_append]
          refine List.mem_append.mpr (Or.inl (List.mem_append.mpr (Or.inr ?_)))
          rw [hb2]
          exact List.mem_map.mpr ⟨s, hM, rfl⟩
      · have hbr2 : s.store_enum ∈ rest := by
          rcases List.mem_cons.mp hbr with h | h
          · exact absurd h hsb
          · exact h
        rcases ih missing _ s hs hbr2 hz hnot with ⟨bp, hbp, hsbp⟩
        exact ⟨bp, List.mem_cons_of_mem _ hbp, hsbp⟩

/-- The failure-count increment id set carried by a fallback state
(`failed_store_ids | centroid_store_ids`, consumed by membership). -/
def incIds (st : FbSt) : List Nat := st.failed_ids ++ st.centroid_ids

/-- Does a row hold the centroid marker of its own brand and ZIP? -/
def isHolder (b z : String) (r : GeoStore) : Bool :=
  decide (r.store_enum = b) && decide (r.zip_code = some z) &&
    decide (r.address = some (markerStr z))

/-- How many rows of brand b and ZIP z hold that ZIP's centroid marker. -/
def markerHolders (db : List GeoStore) (b z : String) : Nat :=
  db.countP (isHolder b z)

/-- The (id, store_enum, zip_code, failure_count) core of a row, which
geometry updates never touch. -/
def rowCore (r : GeoStore) : Nat × String × Option String × Nat :=
  (r.id, r.store_enum, r.zip_code, r.failure_count)

/-- Repeated backfill runs, each with its own pair of oracles. -/
def iterateRuns (db : List GeoStore) :
    List ((String → Option (List Feature)) × (String → Option (String × String))) →
    List GeoStore
  | [] => db
  | o :: rest => iterateRuns (fix_missing_geometry db o.1 o.2).final_db rest

theorem foldl_append_eq {α β : Type} (g : α → List β) :
    ∀ (l : List α) (acc : List β),
      l.foldl (fun a x => a ++ g x) acc = acc ++ l.flatMap g := by
  intro l
  induction l with
  | nil => intro acc; simp
  | cons x rest ih =>
    intro acc
    rw [List.foldl_cons, ih, List.flatMap_cons, List.append_assoc]

theorem fallbackStep_shape (geo : String → Option (String × String))
    (cents : List Nat) (be : String) (st : FbSt) (s : GeoStore) :
    ∃ cache calls,
      fallbackStep geo cents be st s =
        { st with
          zip_cache := cache
          geocode_calls := calls
          failed := st.failed + 1
          failed_ids := st.failed_ids ++ [s.id] } ∨
      (fallbackStep geo cents be st s =
        { st with centroid_ids := st.centroid_ids ++ [s.id] } ∧
        s.id ∈ cents) ∨
      (∃ pt, s.id ∉ cents ∧
        fallbackStep geo cents be st s =
          { st with
            zip_cache := cache
            geocode_calls := calls
            updates := st.updates ++ [⟨s.id, pt, none⟩]
            zip_fallback := st.zip_fallback + 1
            centroid_ids := st.centroid_ids ++ [s.id] }) ∨
      (∃ pt z, s.id ∉ cents ∧ s.zip_code = some z ∧
        (be, some z, markerStr z) ∉ st.conflict_markers ∧
        fallbackStep geo cents be st s =
          { st with
            zip_cache := cache
            geocode_calls := calls
            conflict_markers :=
              st.conflict_markers ++ [(be, some z, markerStr z)]
            updates := st.updates ++ [⟨s.id, pt, some (markerStr z)⟩]
            zip_fallback := st.zip_fallback + 1
            centroid_ids := st.centroid_ids ++ [s.id] }) := by
  unfold fallbackStep
  rcases s.zip_code with _ | z
  · exact ⟨st.zip_cache, st.geocode_calls, Or.inl rfl⟩
  · dsimp only
    by_cases hz : z = ""
    · rw [if_pos hz]
      exact ⟨st.zip_cache, st.geocode_calls, Or.inl rfl⟩
    · rw [if_neg hz]
      by_cases hc : s.id ∈ cents
      · rw [if_pos hc]
        exact ⟨st.zip_cache, st.geocode_calls, Or.inr (Or.inl ⟨rfl, hc⟩)⟩
      · rw [if_neg hc]
        rcases hcf : cacheFind st.zip_cache z with _ | r
        · refine ⟨st.zip_cache ++ [(z, geo z)], st.geocode_calls ++ [z], ?_⟩
          unfold fallbackResolve
          rcases geo z with _ | latlng
          · exact Or.inl rfl
          · dsimp only
            by_cases hm : (be, some z, markerStr z) ∈ st.conflict_markers
            · rw [if_pos hm]
              exact Or.inr (Or.inr (Or.inl ⟨_, hc, rfl⟩))
            · rw [if_neg hm]
              exact Or.inr (Or.inr (Or.inr ⟨_, z, hc, rfl, hm, rfl⟩))
        · refine ⟨st.zip_cache, st.geocode_calls, ?_⟩
          unfold fallbackResolve
          rcases r with _ | latlng
          · exact Or.inl rfl
          · dsimp only
            by_cases hm : (be, some z, markerStr z) ∈ st.conflict_markers
            · rw [if_pos hm]
              exact Or.inr (Or.inr (Or.inl ⟨_, hc, rfl⟩))
            · rw [if_neg hm]
              exact Or.inr (Or.inr (Or.inr ⟨_, z, hc, rfl, hm, rfl⟩))

/-- Shorthand for the run pipeline stages of `fix_missing_geometry`, to
name its intermediate values in proofs. -/
def runCentroids (db : List GeoStore) : List Nat :=
  centroidsOf (selectMissing db)

/-- The deduplicated brand list of a run. -/
def runBrands (db : List GeoStore) : List String :=
  dedupFirstAux [] ((selectMissing db).map (fun s => s.store_enum))

/-- The phase-1 result of a run. -/
def runP1 (db : List GeoStore) (fetch : String → Option (List Feature)) :
    List (String × List GeoStore) × P1St :=
  phase1All (runCentroids db) fetch (runBrands db) (selectMissing db) ⟨[], 0, 0⟩

/-- The pre-fetched conflict set of a run (empty when the ZIP guard trips). -/
def runCM0 (db : List GeoStore) (fetch : String → Option (List Feature)) :
    List (String × Option String × String) :=
  if all_zip_codes (runP1 db fetch).1 = [] then []
  else conflictMarkersInit db (runBrands db)

/-- The initial fallback state of a run. -/
def runFb0 (db : List GeoStore) (fetch : String → Option (List Feature)) :
    FbSt :=
  ⟨runCM0 db fetch, [], [], (runP1 db fetch).2.updates, [], [], 0, 0⟩

/-- The final fallback state of a run. -/
def runFb (db : List GeoStore) (fetch : String → Option (List Feature))
    (geo : String → Option (String × String)) : FbSt :=
  fallbackProcess geo (runCentroids db) (runFb0 db fetch)
    (tagQueue (runP1 db fetch).1)

theorem run_final_db_eq (db : List GeoStore)
    (fetch : String → Option (List Feature))
    (geo : String → Option (String × String)) :
    (fix_missing_geometry db fetch geo).final_db =
      applyIncrements (applyUpdates db (runFb db fetch geo).updates)
        (incIds (runFb db fetch geo)) := rfl

theorem run_increment_ids_eq (db : List GeoStore)
    (fetch : String → Option (List Feature))
    (geo : String → Option (String × String)) :
    (fix_missing_geometry db fetch geo).increment_ids =
      incIds (runFb db fetch geo) := rfl

theorem run_phase1_updates_eq (db : List GeoStore)
    (fetch : String → Option (List Feature))
    (geo : String → Option (String × String)) :
    (fix_missing_geometry db fetch geo).phase1_updates =
      (runP1 db fetch).2.updates := rfl

theorem run_batch_updates_eq (db : List GeoStore)
    (fetch : String → Option (List Feature))
    (geo : String → Option (String × String)) :
    (fix_missing_geometry db fetch geo).batch_updates =
      (runFb db fetch geo).updates := rfl

theorem fallbackStep_incIds (geo : String → Option (String × String))
    (cents : List Nat) (be : String) (st : FbSt) (s : GeoStore) (i : Nat)
    (hi : i ∈ incIds (fallbackStep geo cents be st s)) :
    i ∈ incIds st ∨ i = s.id := by
  rcases fallbackStep_shape geo cents be st s with
    ⟨cache, calls, h | ⟨h, hc⟩ | ⟨pt, hc, h⟩ | ⟨pt, z, hc, hz, hm, h⟩⟩ <;>
    rw [h] at hi <;>
    simp only [incIds, List.mem_append, List.mem_singleton] at hi ⊢ <;>
    tauto

theorem fallbackStep_incIds_mono (geo : String → Option (String × String))
    (cents : List Nat) (be : String) (st : FbSt) (s : GeoStore) (i : Nat)
    (hi : i ∈ incIds st) : i ∈ incIds (fallbackStep geo cents be st s) := by
  rcases fallbackStep_shape geo cents be st s with
    ⟨cache, calls, h | ⟨h, hc⟩ | ⟨pt, hc, h⟩ | ⟨pt, z, hc, hz, hm, h⟩⟩ <;>
    rw [h] <;>
    simp only [incIds, List.mem_append, List.mem_singleton] at hi ⊢ <;>
    tauto

theorem fallbackStep_cent_mem (geo : String → Option (String × String))
    (cents : List Nat) (be : String) (st : FbSt) (s : GeoStore)
    (hc : s.id ∈ cents) :
    s.id ∈ incIds (fallbackStep geo cents be st s) := by
  rcases fallbackStep_shape geo cents be st s with
    ⟨cache, calls, h | ⟨h, _⟩ | ⟨pt, hnc, h⟩ | ⟨pt, z, hnc, hz, hm, h⟩⟩
  · rw [h]
    simp [incIds]
  · rw [h]
    simp [incIds]
  · exact absurd hc hnc
  · exact absurd hc hnc

theorem fallbackStep_updates (geo : String → Option (String × String))
    (cents : List Nat) (be : String) (st : FbSt) (s : GeoStore)
    (u : GeoUpdate) (hu : u ∈ (fallbackStep geo cents be st s).updates) :
    u ∈ st.updates ∨ (u.id = s.id ∧ s.id ∉ cents) := by
  rcases fallbackStep_shape geo cents be st s with
    ⟨cache, calls, h | ⟨h, hc⟩ | ⟨pt, hc, h⟩ | ⟨pt, z, hc, hz, hm, h⟩⟩ <;>
    rw [h] at hu <;>
    simp only [List.mem_append, List.mem_singleton] at hu
  · exact Or.inl hu
  · exact Or.inl hu
  · rcases hu with hu | rfl
    · exact Or.inl hu
    · exact Or.inr ⟨rfl, hc⟩
  · rcases hu with hu | rfl
    · exact Or.inl hu
    · exact Or.inr ⟨rfl, hc⟩

theorem fallbackStep_falsy (geo : String → Option (String × String))
    (cents : List Nat) (be : String) (st : FbSt) (s : GeoStore)
    (h : truthyZip s = false) :
    fallbackStep geo cents be st s =
      { st with
        failed := st.failed + 1
        failed_ids := st.failed_ids ++ [s.id] } := by
  unfold fallbackStep
  unfold truthyZip at h
  rcases hzc : s.zip_code with _ | z
  · rfl
  · rw [hzc] at h
    simp only [decide_eq_false_iff_not, not_not] at h
    dsimp only
    rw [if_pos h]

theorem fallbackProcess_incIds (geo : String → Option (String × String))
    (cents : List Nat) :
    ∀ (pairs : List (String × GeoStore)) (st : FbSt) (i : Nat),
      i ∈ incIds (fallbackProcess geo cents st pairs) →
      i ∈ incIds st ∨ ∃ p ∈ pairs, p.2.id = i := by
  intro pairs
  induction pairs with
  | nil => intro st i hi; exact Or.inl hi
  | cons q rest ih =>
    intro st i hi
    unfold fallbackProcess at hi
    rcases ih _ i hi with h | ⟨p, hp, hpi⟩
    · rcases fallbackStep_incIds geo cents q.1 st q.2 i h with h2 | h2
      · exact Or.inl h2
      · exact Or.inr ⟨q, List.mem_cons_self _ _, h2.symm⟩
    · exact Or.inr ⟨p, List.mem_cons_of_mem _ hp, hpi⟩

theorem fallbackProcess_incIds_mono (geo : String → Option (String × String))
    (cents : List Nat) :
    ∀ (pairs : List (String × GeoStore)) (st : FbSt) (i : Nat),
      i ∈ incIds st → i ∈ incIds (fallbackProcess geo cents st pairs) := by
  intro pairs
  induction pairs with
  | nil => intro st i hi; exact hi
  | cons q rest ih =>
    intro st i hi
    unfold fallbackProcess
    exact ih _ i (fallbackStep_incIds_mono geo cents q.1 st q.2 i hi)

theorem fallbackProcess_cent_mem (geo : String → Option (String × String))
    (cents : List Nat) :
    ∀ (pairs : List (String × GeoStore)) (st : FbSt) (be : String)
      (s : GeoStore), (be, s) ∈ pairs → s.id ∈ cents →
      s.id ∈ incIds (fallbackProcess geo cents st pairs) := by
  intro pairs
  induction pairs with
  | nil => intro st be s hp; exact absurd hp (List.not_mem_nil _)
  | cons q rest ih =>
    intro st be s hp hc
    unfold fallbackProcess
    rcases List.mem_cons.mp hp with heq | htail
    · rw [← heq]
      dsimp only
      exact fallbackProcess_incIds_mono geo cents rest _ s.id
        (fallbackStep_cent_mem geo cents be st s hc)
    · exact ih _ be s htail hc

theorem fallbackProcess_updates (geo : String → Option (String × String))
    (cents : List Nat) :
    ∀ (pairs : List (String × GeoStore)) (st : FbSt) (u : GeoUpdate),
      u ∈ (fallbackProcess geo cents st pairs).updates →
      u ∈ st.updates ∨ ∃ p ∈ pairs, u.id = p.2.id ∧ p.2.id ∉ cents := by
  intro pairs
  induction pairs with
  | nil => intro st u hu; exact Or.inl hu
  | cons q rest ih =>
    intro st u hu
    unfold fallbackProcess at hu
    rcases ih _ u hu with h | ⟨p, hp, hpi⟩
    · rcases fallbackStep_updates geo cents q.1 st q.2 u h with h2 | h2
      · exact Or.inl h2
      · exact Or.inr ⟨q, List.mem_cons_self _ _, h2⟩
    · exact Or.inr ⟨p, List.mem_cons_of_mem _ hp, hpi⟩

theorem fallbackProcess_falsy (geo : String → Option (String × String))
    (cents : List Nat) :
    ∀ (pairs : List (String × GeoStore)) (st : FbSt),
      (∀ p ∈ pairs, truthyZip p.2 = false) →
      (fallbackProcess geo cents st pairs).updates = st.updates := by
  intro pairs
  induction pairs with
  | nil => intro st _; rfl
  | cons q rest ih =>
    intro st hf
    unfold fallbackProcess
    rw [fallbackStep_falsy geo cents q.1 st q.2
      (hf q (List.mem_cons_self _ _))]
    exact ih _ (fun p hp => hf p (List.mem_cons_of_mem _ hp))

theorem tagQueue_mem_mp {queue : List (String × List GeoStore)}
    {p : String × GeoStore} (hp : p ∈ tagQueue queue) :
    ∃ bp ∈ queue, p.1 = bp.1 ∧ p.2 ∈ bp.2 := by
  unfold tagQueue at hp
  rcases List.mem_flatMap.mp hp with ⟨bp, hbp, hmem⟩
  rcases List.mem_map.mp hmem with ⟨s, hs, hps⟩
  exact ⟨bp, hbp, by rw [← hps], by rw [← hps]; exact hs⟩

theorem tagQueue_mem_mpr {queue : List (String × List GeoStore)}
    {bp : String × List GeoStore} {s : GeoStore} (hbp : bp ∈ queue)
    (hs : s ∈ bp.2) : (bp.1, s) ∈ tagQueue queue := by
  unfold tagQueue
  exact List.mem_flatMap.mpr ⟨bp, hbp, List.mem_map.mpr ⟨s, hs, rfl⟩⟩

theorem countP_map_le_add {α : Type} (p q : α → Bool) (f : α → α) :
    ∀ l : List α, (∀ a ∈ l, q a = false → f a = a) →
      List.countP p (l.map f) ≤ List.countP p l + List.countP q l := by
  intro l
  induction l with
  | nil => intro _; simp
  | cons a rest ih =>
    intro hf
    rw [List.map_cons, List.countP_cons, List.countP_cons, List.countP_cons]
    have hrest := ih (fun x hx h => hf x (List.mem_cons_of_mem _ hx) h)
    rw [List.countP_map] at hrest
    cases hq : q a with
    | false =>
      rw [hf a (List.mem_cons_self _ _) hq]
      cases hpa : p a <;> simp [hpa] <;> omega
    | true =>
      cases hpfa : p (f a) <;> cases hpa : p a <;> simp [hpfa, hpa] <;> omega

theorem countP_map_le {α : Type} (p : α → Bool) (f : α → α) :
    ∀ l : List α, (∀ a ∈ l, p (f a) = true → p a = true) →
      List.countP p (l.map f) ≤ List.countP p l := by
  intro l
  induction l with
  | nil => intro _; simp
  | cons a rest ih =>
    intro hf
    rw [List.map_cons, List.countP_cons, List.countP_cons]
    have hrest := ih (fun x hx h => hf x (List.mem_cons_of_mem _ hx) h)
    rw [List.countP_map] at hrest
    cases hpfa : p (f a) with
    | false => simp; omega
    | true =>
      rw [hf a (List.mem_cons_self _ _) hpfa]
      simp
      omega

theorem countP_id_le_one :
    ∀ (l : List Nat) (i : Nat), l.Nodup →
      List.countP (fun x => decide (x = i)) l ≤ 1 := by
  intro l
  induction l with
  | nil => intro i _; simp
  | cons a rest ih =>
    intro i hnd
    rcases List.nodup_cons.mp hnd with ⟨hna, hrest⟩
    rw [List.countP_cons]
    by_cases ha : a = i
    · subst ha
      have hz : List.countP (fun x => decide (x = a)) rest = 0 := by
        rw [List.countP_eq_zero]
        intro x hx
        simp only [decide_eq_true_eq]
        intro hxa
        exact hna (hxa ▸ hx)
      rw [hz]
      simp
    · have := ih i hrest
      simp [ha]
      omega

theorem countP_rowid_le_one (d : List GeoStore) (i : Nat)
    (hnd : (d.map (fun r => r.id)).Nodup) :
    List.countP (fun r => decide (r.id = i)) d ≤ 1 := by
  have h := countP_id_le_one (d.map (fun r => r.id)) i hnd
  rw [List.countP_map] at h
  exact h

theorem applyUpdate_rowCore (db : List GeoStore) (u : GeoUpdate) :
    (applyUpdate db u).map rowCore = db.map rowCore := by
  unfold applyUpdate
  rw [List.map_map]
  apply List.map_congr_left
  intro r _
  by_cases h : r.id = u.id <;> simp [rowCore, Function.comp, h]

theorem applyUpdates_rowCore (us : List GeoUpdate) :
    ∀ db : List GeoStore,
      (applyUpdates db us).map rowCore = db.map rowCore := by
  induction us with
  | nil => intro db; rfl
  | cons u rest ih =>
    intro db
    unfold applyUpdates at ih ⊢
    rw [List.foldl_cons, ih, applyUpdate_rowCore]

theorem applyUpdates_id_map (db : List GeoStore) (us : List GeoUpdate) :
    (applyUpdates db us).map (fun r => r.id) = db.map (fun r => r.id) := by
  have h := congrArg
    (List.map (fun c : Nat × String × Option String × Nat => c.1))
    (applyUpdates_rowCore us db)
  rw [List.map_map, List.map_map] at h
  exact h

theorem applyUpdates_row_match (db : List GeoStore) (us : List GeoUpdate)
    (hnd : (db.map (fun r => r.id)).Nodup) (s : GeoStore) (hs : s ∈ db) :
    ∀ r ∈ applyUpdates db us, r.id = s.id →
      r.store_enum = s.store_enum ∧ r.zip_code = s.zip_code ∧
        r.failure_count = s.failure_count := by
  intro r hr hid
  have hmem : rowCore r ∈ (applyUpdates db us).map rowCore :=
    List.mem_map.mpr ⟨r, hr, rfl⟩
  rw [applyUpdates_rowCore] at hmem
  rcases List.mem_map.mp hmem with ⟨s0, hs0, hcore⟩
  have hids : s0.id = s.id := by
    have : (rowCore s0).1 = (rowCore r).1 := by rw [hcore]
    simp only [rowCore] at this
    rw [this, hid]
  have hs0s : s0 = s := geoIdInj hnd s0 hs0 s hs hids
  rw [hs0s] at hcore
  simp only [rowCore, Prod.mk.injEq] at hcore
  exact ⟨hcore.2.1.symm, hcore.2.2.1.symm, hcore.2.2.2.symm⟩

theorem applyUpdates_row_exists (db : List GeoStore) (us : List GeoUpdate)
    (s : GeoStore) (hs : s ∈ db) :
    ∃ r ∈ applyUpdates db us, r.id = s.id ∧ r.store_enum = s.store_enum ∧
      r.zip_code = s.zip_code ∧ r.failure_count = s.failure_count := by
  have hmem : rowCore s ∈ db.map rowCore := List.mem_map.mpr ⟨s, hs, rfl⟩
  rw [← applyUpdates_rowCore us db] at hmem
  rcases List.mem_map.mp hmem with ⟨r, hr, hcore⟩
  simp only [rowCore, Prod.mk.injEq] at hcore
  exact ⟨r, hr, hcore.1, hcore.2.1, hcore.2.2.1, hcore.2.2.2⟩

theorem applyUpdates_row_from (db : List GeoStore) (us : List GeoUpdate)
    (r : GeoStore) (hr : r ∈ applyUpdates db us) :
    ∃ s ∈ db, r.id = s.id ∧ r.store_enum = s.store_enum ∧
      r.zip_code = s.zip_code ∧ r.failure_count = s.failure_count := by
  have hmem : rowCore r ∈ (applyUpdates db us).map rowCore :=
    List.mem_map.mpr ⟨r, hr, rfl⟩
  rw [applyUpdates_rowCore] at hmem
  rcases List.mem_map.mp hmem with ⟨s, hs, hcore⟩
  simp only [rowCore, Prod.mk.injEq] at hcore
  exact ⟨s, hs, hcore.1.symm, hcore.2.1.symm, hcore.2.2.1.symm,
    hcore.2.2.2.symm⟩

theorem applyUpdates_append_one (d : List GeoStore) (us : List GeoUpdate)
    (u : GeoUpdate) :
    applyUpdates d (us ++ [u]) = applyUpdate (applyUpdates d us) u := by
  unfold applyUpdates
  rw [List.foldl_append]
  rfl

theorem applyUpdate_none_countP (b z : String) (d : List GeoStore)
    (u : GeoUpdate) (h : u.address = none) :
    List.countP (isHolder b z) (applyUpdate d u) =
      List.countP (isHolder b z) d := by
  unfold applyUpdate
  rw [List.countP_map]
  apply List.countP_congr
  intro r _
  by_cases hid : r.id = u.id <;> simp [isHolder, Function.comp, hid, h]

theorem applyUpdates_none_countP (b z : String) :
    ∀ (us : List GeoUpdate) (d : List GeoStore),
      (∀ u ∈ us, u.address = none) →
      List.countP (isHolder b z) (applyUpdates d us) =
        List.countP (isHolder b z) d := by
  intro us
  induction us with
  | nil => intro d _; rfl
  | cons u rest ih =>
    intro d hn
    unfold applyUpdates at ih ⊢
    rw [List.foldl_cons, ih _ (fun x hx => hn x (List.mem_cons_of_mem _ hx)),
      applyUpdate_none_countP b z d u (hn u (List.mem_cons_self _ _))]

theorem applyIncrements_countP (b z : String) (d : List GeoStore)
    (ids : List Nat) :
    List.countP (isHolder b z) (applyIncrements d ids) =
      List.countP (isHolder b z) d := by
  unfold applyIncrements
  rw [List.countP_map]
  apply List.countP_congr
  intro r _
  by_cases h : r.id ∈ ids <;> simp [isHolder, Function.comp, h]

theorem applyIncrements_id_map (d : List GeoStore) (ids : List Nat) :
    (applyIncrements d ids).map (fun r => r.id) = d.map (fun r => r.id) := by
  unfold applyIncrements
  rw [List.map_map]
  apply List.map_congr_left
  intro r _
  by_cases h : r.id ∈ ids <;> simp [Function.comp, h]

theorem listStarts_self_append : ∀ (p t : List Char), listStarts p (p ++ t) = true := by
  intro p
  induction p with
  | nil => intro t; rfl
  | cons c rest ih =>
    intro t
    unfold listStarts
    simp only [List.cons_append]
    rw [ih t]
    simp

theorem markerPattern_markerStr (z : String) :
    markerPattern (markerStr z) = true := by
  unfold markerPattern markerStr
  have hdata : ("ZIP " ++ z ++ " (centroid)").data =
      ("ZIP ".data ++ z.data) ++ " (centroid)".data := rfl
  rw [hdata]
  have h1 : listStarts "ZIP ".data
      (("ZIP ".data ++ z.data) ++ " (centroid)".data) = true := by
    rw [List.append_assoc]
    exact listStarts_self_append _ _
  have h2 : listStarts (" (centroid)".data.reverse)
      ((("ZIP ".data ++ z.data) ++ " (centroid)".data).reverse) = true := by
    rw [List.reverse_append]
    exact listStarts_self_append _ _
  rw [h1, h2]
  have h3 : 15 ≤ (("ZIP ".data ++ z.data) ++ " (centroid)".data).length := by
    rw [List.length_append, List.length_append]
    have e1 : "ZIP ".data.length = 4 := rfl
    have e2 : " (centroid)".data.length = 11 := rfl
    rw [e1, e2]
    omega
  simp [h3]

theorem conflictMarkersInit_complete (db : List GeoStore)
    (brands : List String) (r : GeoStore) (hr : r ∈ db)
    (hb : r.store_enum ∈ brands)
    (hp : markerPattern (r.address.getD "") = true) :
    (r.store_enum, r.zip_code, r.address.getD "") ∈
      conflictMarkersInit db brands := by
  unfold conflictMarkersInit
  rw [foldl_append_eq]
  rw [List.nil_append]
  refine List.mem_flatMap.mpr ⟨r.store_enum, hb, ?_⟩
  refine List.mem_map.mpr ⟨r, List.mem_filter.mpr ⟨hr, ?_⟩, rfl⟩
  simp [hp]

theorem all_zip_codes_empty {queue : List (String × List GeoStore)}
    (h : all_zip_codes queue = []) :
    ∀ bp ∈ queue, ∀ s ∈ bp.2, truthyZip s = false := by
  unfold all_zip_codes at h
  rw [foldl_append_eq, List.nil_append] at h
  intro bp hbp s hs
  have hbp2 := List.flatMap_eq_nil_iff.mp h bp hbp
  have hfil : bp.2.filter truthyZip = [] := by
    rcases hf : bp.2.filter truthyZip with _ | ⟨a, rest⟩
    · rfl
    · rw [hf] at hbp2
      simp at hbp2
  by_contra hts
  have : s ∈ bp.2.filter truthyZip :=
    List.mem_filter.mpr ⟨hs, by
      revert hts
      cases truthyZip s <;> simp⟩
  rw [hfil] at this
  exact absurd this (List.not_mem_nil _)

theorem selectMissing_mem {db : List GeoStore} {s : GeoStore}
    (hs : s ∈ selectMissing db) : s ∈ db ∧ s.failure_count < 3 := by
  rcases List.mem_filter.mp hs with ⟨h1, h2⟩
  rw [Bool.and_eq_true] at h2
  have := h2.2
  simp only [decide_eq_true_eq] at this
  exact ⟨h1, this⟩

theorem selectMissing_ids_nodup {db : List GeoStore}
    (hnd : (db.map (fun r => r.id)).Nodup) :
    ((selectMissing db).map (fun r => r.id)).Nodup :=
  ((List.filter_sublist _).map _).nodup hnd

theorem not_selectMissing_of_ge3 {db : List GeoStore} {s : GeoStore}
    (h3 : 3 ≤ s.failure_count) : s ∉ selectMissing db := by
  intro hs
  exact absurd (selectMissing_mem hs).2 (by omega)

theorem run_increment_from_missing (db : List GeoStore)
    (fetch : String → Option (List Feature))
    (geo : String → Option (String × String)) (i : Nat)
    (hi : i ∈ (fix_missing_geometry db fetch geo).increment_ids) :
    ∃ m ∈ selectMissing db, m.id = i := by
  rw [run_increment_ids_eq] at hi
  unfold runFb at hi
  rcases fallbackProcess_incIds geo (runCentroids db)
    (tagQueue (runP1 db fetch).1) (runFb0 db fetch) i hi with h | ⟨p, hp, hpi⟩
  · simp [incIds, runFb0] at h
  · rcases tagQueue_mem_mp hp with ⟨bp, hbp, _, hp2⟩
    have hq := phase1All_queue_spec (runCentroids db) fetch (runBrands db)
      (selectMissing db) ⟨[], 0, 0⟩ bp hbp
    exact ⟨p.2, (hq.2 p.2 hp2).2, hpi⟩

theorem run_fc_le (db : List GeoStore)
    (fetch : String → Option (List Feature))
    (geo : String → Option (String × String))
    (hnd : (db.map (fun r => r.id)).Nodup)
    (hb : ∀ s ∈ db, s.failure_count ≤ 3) :
    ∀ t ∈ (fix_missing_geometry db fetch geo).final_db,
      t.failure_count ≤ 3 := by
  intro t ht
  rw [run_final_db_eq] at ht
  unfold applyIncrements at ht
  rcases List.mem_map.mp ht with ⟨r, hr, hrt⟩
  rcases applyUpdates_row_from db (runFb db fetch geo).updates r hr with
    ⟨s, hs, hid, _, _, hfc⟩
  by_cases hinc : r.id ∈ incIds (runFb db fetch geo)
  · rw [if_pos hinc] at hrt
    rcases run_increment_from_missing db fetch geo r.id
      (by rw [run_increment_ids_eq]; exact hinc) with ⟨m, hm, hmi⟩
    have hmdb := (selectMissing_mem hm).1
    have hms : m = s := geoIdInj hnd m hmdb s hs (by rw [hmi, hid])
    have hlt : s.failure_count < 3 := hms ▸ (selectMissing_mem hm).2
    rw [← hrt]
    dsimp only
    omega
  · rw [if_neg hinc] at hrt
    rw [← hrt, hfc]
    exact hb s hs

theorem run_id_map (db : List GeoStore)
    (fetch : String → Option (List Feature))
    (geo : String → Option (String × String)) :
    ((fix_missing_geometry db fetch geo).final_db).map (fun r => r.id) =
      db.map (fun r => r.id) := by
  rw [run_final_db_eq, applyIncrements_id_map, applyUpdates_id_map]

theorem run_keep_high (db : List GeoStore)
    (fetch : String → Option (List Feature))
    (geo : String → Option (String × String))
    (hnd : (db.map (fun r => r.id)).Nodup) (s : GeoStore) (hs : s ∈ db)
    (h3 : 3 ≤ s.failure_count) :
    ∃ t ∈ (fix_missing_geometry db fetch geo).final_db,
      t.id = s.id ∧ t.failure_count = s.failure_count := by
  rcases applyUpdates_row_exists db (runFb db fetch geo).updates s hs with
    ⟨r, hr, hid, _, _, hfc⟩
  have hninc : r.id ∉ incIds (runFb db fetch geo) := by
    intro hinc
    rcases run_increment_from_missing db fetch geo r.id
      (by rw [run_increment_ids_eq]; exact hinc) with ⟨m, hm, hmi⟩
    have hmdb := (selectMissing_mem hm).1
    have hms : m = s := geoIdInj hnd m hmdb s hs (by rw [hmi, hid])
    have := (selectMissing_mem hm).2
    rw [hms] at this
    omega
  refine ⟨{ r with failure_count := r.failure_count }, ?_, hid, hfc⟩
  rw [run_final_db_eq]
  unfold applyIncrements
  refine List.mem_map.mpr ⟨r, hr, ?_⟩
  rw [if_neg hninc]

theorem fallbackProcess_marker_inv (db : List GeoStore)
    (hnd : (db.map (fun r => r.id)).Nodup)
    (geo : String → Option (String × String)) (cents : List Nat)
    (b z : String) :
    ∀ (pairs : List (String × GeoStore)) (st : FbSt),
      (∀ p ∈ pairs, p.2 ∈ db ∧ p.2.store_enum = p.1) →
      List.countP (isHolder b z) (applyUpdates db st.updates) ≤ 1 →
      (List.countP (isHolder b z) (applyUpdates db st.updates) = 1 →
        (b, some z, markerStr z) ∈ st.conflict_markers ∨
          ∀ p ∈ pairs, p.1 ≠ b) →
      List.countP (isHolder b z)
        (applyUpdates db (fallbackProcess geo cents st pairs).updates) ≤ 1 := by
  intro pairs
  induction pairs with
  | nil => intro st _ h1 _; exact h1
  | cons q rest ih =>
    intro st hside h1 h2
    unfold fallbackProcess
    rcases hside q (List.mem_cons_self _ _) with ⟨hqdb, hqe⟩
    have hsideR : ∀ p ∈ rest, p.2 ∈ db ∧ p.2.store_enum = p.1 :=
      fun p hp => hside p (List.mem_cons_of_mem _ hp)
    rcases fallbackStep_shape geo cents q.1 st q.2 with
      ⟨cache, calls, h | ⟨h, hc⟩ | ⟨pt, hc, h⟩ | ⟨pt, zq, hc, hz, hm, h⟩⟩
    · rw [h]
      refine ih _ hsideR h1 ?_
      intro hcnt
      rcases h2 hcnt with hcm | hall
      · exact Or.inl hcm
      · exact Or.inr fun p hp => hall p (List.mem_cons_of_mem _ hp)
    · rw [h]
      refine ih _ hsideR h1 ?_
      intro hcnt
      rcases h2 hcnt with hcm | hall
      · exact Or.inl hcm
      · exact Or.inr fun p hp => hall p (List.mem_cons_of_mem _ hp)
    · rw [h]
      refine ih _ hsideR ?_ ?_
      · dsimp only
        rw [applyUpdates_append_one, applyUpdate_none_countP b z _ _ rfl]
        exact h1
      · dsimp only
        rw [applyUpdates_append_one, applyUpdate_none_countP b z _ _ rfl]
        intro hcnt
        rcases h2 hcnt with hcm | hall
        · exact Or.inl hcm
        · exact Or.inr fun p hp => hall p (List.mem_cons_of_mem _ hp)
    · rw [h]
      by_cases hbz : q.1 = b ∧ zq = z
      · rcases hbz with ⟨hqb, hzz⟩
        have hTnot : (b, some z, markerStr z) ∉ st.conflict_markers := by
          rw [← hqb, ← hzz]
          exact hm
        have hcnt0 : List.countP (isHolder b z)
            (applyUpdates db st.updates) = 0 := by
          rcases Nat.eq_or_lt_of_le h1 with heq | hlt
          · rcases h2 heq with hcm | hall
            · exact absurd hcm hTnot
            · exact absurd hqb (hall q (List.mem_cons_self _ _))
          · omega
        refine ih _ hsideR ?_ ?_
        · dsimp only
          rw [applyUpdates_append_one]
          unfold applyUpdate
          refine le_trans (countP_map_le_add (isHolder b z)
            (fun r => decide (r.id = q.2.id)) _ (applyUpdates db st.updates)
            ?_) ?_
          · intro r _ hqf
            simp only [decide_eq_false_iff_not] at hqf
            simp [hqf]
          · rw [hcnt0]
            have hnd2 : ((applyUpdates db st.updates).map
                (fun r => r.id)).Nodup := by
              rw [applyUpdates_id_map]
              exact hnd
            have hone := countP_rowid_le_one (applyUpdates db st.updates)
              q.2.id hnd2
            omega
        · intro _
          refine Or.inl ?_
          dsimp only
          refine List.mem_append.mpr (Or.inr ?_)
          rw [hqb, hzz]
          exact List.mem_singleton.mpr rfl
      · have hle : List.countP (isHolder b z)
            (applyUpdates db (st.updates ++
              [⟨q.2.id, pt, some (markerStr zq)⟩])) ≤
            List.countP (isHolder b z) (applyUpdates db st.updates) := by
          rw [applyUpdates_append_one]
          unfold applyUpdate
          refine countP_map_le (isHolder b z) _
            (applyUpdates db st.updates) ?_
          intro r hr hp
          by_cases hid : r.id = q.2.id
          · exfalso
            rw [if_pos hid] at hp
            rcases applyUpdates_row_match db st.updates hnd q.2 hqdb r hr
              hid with ⟨he, hzc, _⟩
            simp only [isHolder, Bool.and_eq_true, decide_eq_true_eq] at hp
            rcases hp with ⟨⟨hpe, hpz⟩, _⟩
            refine hbz ⟨?_, ?_⟩
            · rw [← hqe, ← he, hpe]
            · have : some zq = some z := by
                rw [← hz, ← hzc, hpz]
              injection this
          · rw [if_neg hid] at hp
            exact hp
        refine ih _ hsideR ?_ ?_
        · dsimp only
          exact le_trans hle h1
        · dsimp only
          intro hcnt
          have hcnt1 : List.countP (isHolder b z)
              (applyUpdates db st.updates) = 1 := by
            omega
          rcases h2 hcnt1 with hcm | hall
          · exact Or.inl (List.mem_append.mpr (Or.inl hcm))
          · exact Or.inr fun p hp => hall p (List.mem_cons_of_mem _ hp)

theorem run_incr_le_one (db : List GeoStore)
    (fetch : String → Option (List Feature))
    (geo : String → Option (String × String))
    (hnd : (db.map (fun r => r.id)).Nodup) (s : GeoStore) (hs : s ∈ db) :
    ∃ t ∈ (fix_missing_geometry db fetch geo).final_db, t.id = s.id ∧
      (t.failure_count = s.failure_count ∨
        (s.failure_count < 3 ∧ t.failure_count = s.failure_count + 1)) := by
  rcases applyUpdates_row_exists db (runFb db fetch geo).updates s hs with
    ⟨r, hr, hid, _, _, hfc⟩
  by_cases hinc : r.id ∈ incIds (runFb db fetch geo)
  · rcases run_increment_from_missing db fetch geo r.id
      (by rw [run_increment_ids_eq]; exact hinc) with ⟨m, hm, hmi⟩
    have hmdb := (selectMissing_mem hm).1
    have hms : m = s := geoIdInj hnd m hmdb s hs (by rw [hmi, hid])
    have hlt : s.failure_count < 3 := hms ▸ (selectMissing_mem hm).2
    refine ⟨{ r with failure_count := r.failure_count + 1 }, ?_, hid,
      Or.inr ⟨hlt, by dsimp only; rw [hfc]⟩⟩
    rw [run_final_db_eq]
    unfold applyIncrements
    refine List.mem_map.mpr ⟨r, hr, ?_⟩
    rw [if_pos hinc]
  · refine ⟨{ r with failure_count := r.failure_count }, ?_, hid,
      Or.inl hfc⟩
    rw [run_final_db_eq]
    unfold applyIncrements
    refine List.mem_map.mpr ⟨r, hr, ?_⟩
    rw [if_neg hinc]

theorem iterate_fc_le :
    ∀ (runs : List ((String → Option (List Feature)) ×
        (String → Option (String × String)))) (db : List GeoStore),
      (db.map (fun r => r.id)).Nodup → (∀ s ∈ db, s.failure_count ≤ 3) →
      ∀ t ∈ iterateRuns db runs, t.failure_count ≤ 3 := by
  intro runs
  induction runs with
  | nil => intro db _ hb t ht; exact hb t ht
  | cons o rest ih =>
    intro db hnd hb t ht
    unfold iterateRuns at ht
    refine ih _ ?_ ?_ t ht
    · rw [run_id_map]
      exact hnd
    · exact run_fc_le db o.1 o.2 hnd hb

theorem iterate_keep_high :
    ∀ (runs : List ((String → Option (List Feature)) ×
        (String → Option (String × String)))) (db : List GeoStore),
      (db.map (fun r => r.id)).Nodup →
      ∀ s ∈ db, 3 ≤ s.failure_count →
      ∃ t ∈ iterateRuns db runs, t.id = s.id ∧
        t.failure_count = s.failure_count := by
  intro runs
  induction runs with
  | nil => intro db _ s hs _; exact ⟨s, hs, rfl, rfl⟩
  | cons o rest ih =>
    intro db hnd s hs h3
    unfold iterateRuns
    rcases run_keep_high db o.1 o.2 hnd s hs h3 with ⟨t1, ht1, hid1, hfc1⟩
    rcases ih (fix_missing_geometry db o.1 o.2).final_db
      (by rw [run_id_map]; exact hnd) t1 ht1 (by rw [hfc1]; exact h3) with
      ⟨t2, ht2, hid2, hfc2⟩
    exact ⟨t2, ht2, by rw [hid2, hid1], by rw [hfc2, hfc1]⟩

/-- C2: the backfill selects only stores with failure_count strictly below
3; within one run a store's count rises by at most 1, and only if the store
was selected; across any sequence of backfill runs every count that started
at most 3 stays at most 3; and a store at 3 or more keeps its exact count
through every run and is excluded from every later selection. -/
theorem c2_failure_count_bound (db : List GeoStore)
    (runs : List ((String → Option (List Feature)) ×
      (String → Option (String × String))))
    (fetch : String → Option (List Feature))
    (geo : String → Option (String × String))
    (hnd : (db.map (fun r => r.id)).Nodup)
    (hb : ∀ s ∈ db, s.failure_count ≤ 3) :
    (∀ s ∈ selectMissing db, s.failure_count < 3) ∧
    (∀ s ∈ db, ∃ t ∈ (fix_missing_geometry db fetch geo).final_db,
      t.id = s.id ∧
      (t.failure_count = s.failure_count ∨
        (s.failure_count < 3 ∧ t.failure_count = s.failure_count + 1))) ∧
    (∀ t ∈ iterateRuns db runs, t.failure_count ≤ 3) ∧
    (∀ s ∈ db, 3 ≤ s.failure_count →
      ∃ t ∈ iterateRuns db runs, t.id = s.id ∧
        t.failure_count = s.failure_count ∧
        t ∉ selectMissing (iterateRuns db runs)) := by
  refine ⟨fun s hs => (selectMissing_mem hs).2,
    fun s hs => run_incr_le_one db fetch geo hnd s hs,
    iterate_fc_le runs db hnd hb, ?_⟩
  intro s hs h3
  rcases iterate_keep_high runs db hnd s hs h3 with ⟨t, ht, hid, hfc⟩
  exact ⟨t, ht, hid, hfc,
    not_selectMissing_of_ge3 (by rw [hfc]; exact h3)⟩

/-- C3: centroid address markers stay unique per (brand, zip). Starting
from a database in which at most one row of each brand and ZIP holds that
ZIP's marker "ZIP <zip> (centroid)" as its address, a backfill run
preserves the property: the fallback assigns the marker only when the
(brand, zip, marker) triple is absent from the pre-fetched conflict set,
extends the set on assignment, and queues a geometry-only update when the
triple is present. -/
theorem c3_centroid_marker_uniqueness (db : List GeoStore)
    (fetch : String → Option (List Feature))
    (geo : String → Option (String × String))
    (hnd : (db.map (fun r => r.id)).Nodup)
    (hinit : ∀ b z, markerHolders db b z ≤ 1) :
    ∀ b z,
      markerHolders (fix_missing_geometry db fetch geo).final_db b z ≤ 1 := by
  intro b z
  unfold markerHolders
  rw [run_final_db_eq, applyIncrements_countP]
  have hinit' : List.countP (isHolder b z) db ≤ 1 := hinit b z
  rcases phase1All_updates_mono (runCentroids db) fetch (runBrands db)
    (selectMissing db) ⟨[], 0, 0⟩ with ⟨added, hadd1, hadd2⟩
  have hupd : (runFb0 db fetch).updates = added := by
    show (runP1 db fetch).2.updates = added
    unfold runP1
    rw [hadd1]
    exact List.nil_append added
  by_cases hg : all_zip_codes (runP1 db fetch).1 = []
  · have hfalsy : ∀ p ∈ tagQueue (runP1 db fetch).1,
        truthyZip p.2 = false := by
      intro p hp
      rcases tagQueue_mem_mp hp with ⟨bp, hbp, _, hp2⟩
      exact all_zip_codes_empty hg bp hbp p.2 hp2
    unfold runFb
    rw [fallbackProcess_falsy geo (runCentroids db) _ _ hfalsy]
    rw [hupd, applyUpdates_none_countP b z added db
      (fun u hu => (hadd2 u hu).1)]
    exact hinit'
  · unfold runFb
    refine fallbackProcess_marker_inv db hnd geo (runCentroids db) b z
      (tagQueue (runP1 db fetch).1) (runFb0 db fetch) ?_ ?_ ?_
    · intro p hp
      rcases tagQueue_mem_mp hp with ⟨bp, hbp, hp1, hp2⟩
      have hq := phase1All_queue_spec (runCentroids db) fetch (runBrands db)
        (selectMissing db) ⟨[], 0, 0⟩ bp hbp
      have hx := hq.2 p.2 hp2
      exact ⟨(selectMissing_mem hx.2).1, by rw [hx.1, hp1]⟩
    · rw [hupd, applyUpdates_none_countP b z added db
        (fun u hu => (hadd2 u hu).1)]
      exact hinit'
    · rw [hupd, applyUpdates_none_countP b z added db
        (fun u hu => (hadd2 u hu).1)]
      intro hcnt
      have hpos : 0 < List.countP (isHolder b z) db := by omega
      rcases List.countP_pos_iff.mp hpos with ⟨r, hr, hpr⟩
      simp only [isHolder, Bool.and_eq_true, decide_eq_true_eq] at hpr
      rcases hpr with ⟨⟨hre, hrz⟩, hra⟩
      by_cases hbb : b ∈ runBrands db
      · refine Or.inl ?_
        show (b, some z, markerStr z) ∈ runCM0 db fetch
        unfold runCM0
        rw [if_neg hg]
        have hcm := conflictMarkersInit_complete db (runBrands db) r hr
          (by rw [hre]; exact hbb)
          (by rw [hra]; simp only [Option.getD_some]
              exact markerPattern_markerStr z)
        rw [hre, hrz, hra] at hcm
        simp only [Option.getD_some] at hcm
        exact hcm
      · refine Or.inr ?_
        intro p hp hpb
        rcases tagQueue_mem_mp hp with ⟨bp, hbp, hp1, _⟩
        have hq := (phase1All_queue_spec (runCentroids db) fetch
          (runBrands db) (selectMissing db) ⟨[], 0, 0⟩ bp hbp).1
        rw [hp1] at hpb
        rw [hpb] at hq
        exact hbb hq

/-- How many of the queued updates target a store that already held a
centroid (these are the `centroid_upgrades` of phase 1). -/
def upgCount (centroids : List Nat) (us : List GeoUpdate) : Nat :=
  us.countP (fun u => decide (u.id ∈ centroids))

/-- How many of the queued updates target a store with no prior centroid
(these are the `all_the_places` matches of phase 1). -/
def newCount (centroids : List Nat) (us : List GeoUpdate) : Nat :=
  us.countP (fun u => !(decide (u.id ∈ centroids)))

theorem phase1Feature_stats (centroids : List Nat)
    (idx : List (String × List GeoStore)) (p : P1St) (f : Feature) :
    (phase1Feature centroids (idx, p) f).2 = p ∨
    ∃ u, (phase1Feature centroids (idx, p) f).2.updates =
        p.updates ++ [u] ∧
      ((u.id ∈ centroids ∧
        (phase1Feature centroids (idx, p) f).2.centroid_upgrades =
          p.centroid_upgrades + 1 ∧
        (phase1Feature centroids (idx, p) f).2.all_the_places =
          p.all_the_places) ∨
       (u.id ∉ centroids ∧
        (phase1Feature centroids (idx, p) f).2.centroid_upgrades =
          p.centroid_upgrades ∧
        (phase1Feature centroids (idx, p) f).2.all_the_places =
          p.all_the_places + 1)) := by
  unfold phase1Feature
  dsimp only
  rcases hfind : assocFind idx (featZip f) with _ | bucket
  · exact Or.inl rfl
  · rcases hco : f.coordinates with _ | co
    · exact Or.inl rfl
    · match co with
      | [] => exact Or.inl rfl
      | [lon] => exact Or.inl rfl
      | lon :: lat :: c :: cs => exact Or.inl rfl
      | [lon, lat] =>
        match bucket with
        | [] => exact Or.inl rfl
        | store :: rest =>
          refine Or.inr ⟨⟨store.id, "POINT(" ++ lon ++ " " ++ lat ++ ")",
            none⟩, rfl, ?_⟩
          by_cases hwc : store.id ∈ centroids
          · exact Or.inl ⟨hwc, by dsimp only; simp [hwc],
              by dsimp only; simp [hwc]⟩
          · exact Or.inr ⟨hwc, by dsimp only; simp [hwc],
              by dsimp only; simp [hwc]⟩

theorem phase1Features_stats (centroids : List Nat) :
    ∀ (fs : List Feature) (idx : List (String × List GeoStore)) (p : P1St),
      ∃ added,
        (phase1Features centroids (idx, p) fs).2.updates =
          p.updates ++ added ∧
        (phase1Features centroids (idx, p) fs).2.centroid_upgrades =
          p.centroid_upgrades + upgCount centroids added ∧
        (phase1Features centroids (idx, p) fs).2.all_the_places =
          p.all_the_places + newCount centroids added := by
  intro fs
  induction fs with
  | nil =>
    intro idx p
    exact ⟨[], by simp [phase1Features], by simp [phase1Features, upgCount],
      by simp [phase1Features, newCount]⟩
  | cons f rest ih =>
    intro idx p
    rcases hres : phase1Feature centroids (idx, p) f with ⟨idx1, p1⟩
    have hstep : phase1Features centroids (idx, p) (f :: rest) =
        phase1Features centroids (idx1, p1) rest := by
      unfold phase1Features
      rw [hres]
      cases rest
      · rfl
      · rfl
    rw [hstep]
    rcases ih idx1 p1 with ⟨added, h1, h2, h3⟩
    rcases phase1Feature_stats centroids idx p f with hid | ⟨u, hu1, hu2⟩
    · rw [hres] at hid
      dsimp only at hid
      subst hid
      exact ⟨added, h1, h2, h3⟩
    · rw [hres] at hu1 hu2
      dsimp only at hu1 hu2
      refine ⟨u :: added, ?_, ?_, ?_⟩
      · rw [h1, hu1, List.append_assoc, List.singleton_append]
      · rw [h2]
        unfold upgCount
        rw [List.countP_cons]
        rcases hu2 with ⟨hin, hcu, _⟩ | ⟨hnin, hcu, _⟩
        · rw [hcu]
          simp [hin]
          omega
        · rw [hcu]
          simp [hnin]
      · rw [h3]
        unfold newCount
        rw [List.countP_cons]
        rcases hu2 with ⟨hin, _, hatp⟩ | ⟨hnin, _, hatp⟩
        · rw [hatp]
          simp [hin]
        · rw [hatp]
          simp [hnin]
          omega

theorem phase1Brand_stats (centroids : List Nat)
    (fetchRes : Option (List Feature)) (stores : List GeoStore) (p : P1St) :
    ∃ added,
      (phase1Brand centroids fetchRes stores p).2.updates =
        p.updates ++ added ∧
      (phase1Brand centroids fetchRes stores p).2.centroid_upgrades =
        p.centroid_upgrades + upgCount centroids added ∧
      (phase1Brand centroids fetchRes stores p).2.all_the_places =
        p.all_the_places + newCount centroids added := by
  unfold phase1Brand
  rcases fetchRes with _ | fs
  · exact ⟨[], by simp, by simp [upgCount], by simp [newCount]⟩
  · dsimp only
    exact phase1Features_stats centroids fs (buildZipIndex stores) p

theorem phase1All_stats (centroids : List Nat)
    (fetch : String → Option (List Feature)) :
    ∀ (brands : List String) (missing : List GeoStore) (p : P1St),
      ∃ added,
        (phase1All centroids fetch brands missing p).2.updates =
          p.updates ++ added ∧
        (phase1All centroids fetch brands missing p).2.centroid_upgrades =
          p.centroid_upgrades + upgCount centroids added ∧
        (phase1All centroids fetch brands missing p).2.all_the_places =
          p.all_the_places + newCount centroids added := by
  intro brands
  induction brands with
  | nil =>
    intro missing p
    exact ⟨[], by simp [phase1All], by simp [phase1All, upgCount],
      by simp [phase1All, newCount]⟩
  | cons b rest ih =>
    intro missing p
    unfold phase1All
    rcases hsp : dictGet ENUM_TO_SPIDER b with _ | spider
    · dsimp only
      exact ih missing p
    · dsimp only
      rcases phase1Brand_stats centroids (fetch spider)
        (missing.filter (fun s => decide (s.store_enum = b))) p with
        ⟨a1, hb1, hb2, hb3⟩
      rcases ih missing (phase1Brand centroids (fetch spider)
        (missing.filter (fun s => decide (s.store_enum = b))) p).2 with
        ⟨a2, hr1, hr2, hr3⟩
      refine ⟨a1 ++ a2, ?_, ?_, ?_⟩
      · rw [hr1, hb1, List.append_assoc]
      · rw [hr2, hb2]
        unfold upgCount
        rw [List.countP_append]
        omega
      · rw [hr3, hb3]
        unfold newCount
        rw [List.countP_append]
        omega

theorem run_centroid_upgrades_eq (db : List GeoStore)
    (fetch : String → Option (List Feature))
    (geo : String → Option (String × String)) :
    (fix_missing_geometry db fetch geo).centroid_upgrades =
      (runP1 db fetch).2.centroid_upgrades := rfl

theorem run_all_the_places_eq (db : List GeoStore)
    (fetch : String → Option (List Feature))
    (geo : String → Option (String × String)) :
    (fix_missing_geometry db fetch geo).all_the_places =
      (runP1 db fetch).2.all_the_places := rfl

theorem run_geocode_calls_eq (db : List GeoStore)
    (fetch : String → Option (List Feature))
    (geo : String → Option (String × String)) :
    (fix_missing_geometry db fetch geo).geocode_calls =
      (runFb db fetch geo).geocode_calls := rfl

theorem run_stats_counts (db : List GeoStore)
    (fetch : String → Option (List Feature))
    (geo : String → Option (String × String)) :
    (fix_missing_geometry db fetch geo).centroid_upgrades =
      upgCount (centroidsOf (selectMissing db))
        (fix_missing_geometry db fetch geo).phase1_updates ∧
    (fix_missing_geometry db fetch geo).all_the_places =
      newCount (centroidsOf (selectMissing db))
        (fix_missing_geometry db fetch geo).phase1_updates := by
  rcases phase1All_stats (runCentroids db) fetch (runBrands db)
    (selectMissing db) ⟨[], 0, 0⟩ with ⟨added, h1, h2, h3⟩
  have hupd : (fix_missing_geometry db fetch geo).phase1_updates = added := by
    rw [run_phase1_updates_eq]
    unfold runP1
    rw [h1]
    exact List.nil_append added
  constructor
  · rw [run_centroid_upgrades_eq, hupd]
    show (phase1All (runCentroids db) fetch (runBrands db)
      (selectMissing db) ⟨[], 0, 0⟩).2.centroid_upgrades =
      upgCount (centroidsOf (selectMissing db)) added
    rw [h2]
    exact Nat.zero_add _
  · rw [run_all_the_places_eq, hupd]
    show (phase1All (runCentroids db) fetch (runBrands db)
      (selectMissing db) ⟨[], 0, 0⟩).2.all_the_places =
      newCount (centroidsOf (selectMissing db)) added
    rw [h3]
    exact Nat.zero_add _

theorem fallbackStep_calls (geo : String → Option (String × String))
    (cents : List Nat) (be : String) (st : FbSt) (s : GeoStore) :
    (fallbackStep geo cents be st s).geocode_calls = st.geocode_calls ∨
    ∃ z, s.zip_code = some z ∧ s.id ∉ cents ∧
      (fallbackStep geo cents be st s).geocode_calls =
        st.geocode_calls ++ [z] := by
  unfold fallbackStep
  rcases s.zip_code with _ | z
  · exact Or.inl rfl
  · dsimp only
    by_cases hz : z = ""
    · rw [if_pos hz]
      exact Or.inl rfl
    · rw [if_neg hz]
      by_cases hc : s.id ∈ cents
      · rw [if_pos hc]
        exact Or.inl rfl
      · rw [if_neg hc]
        rcases hcf : cacheFind st.zip_cache z with _ | r
        · refine Or.inr ⟨z, rfl, hc, ?_⟩
          unfold fallbackResolve
          rcases geo z with _ | latlng
          · rfl
          · dsimp only
            by_cases hm : (be, some z, markerStr z) ∈ st.conflict_markers
            · rw [if_pos hm]
            · rw [if_neg hm]
        · refine Or.inl ?_
          unfold fallbackResolve
          rcases r with _ | latlng
          · rfl
          · dsimp only
            by_cases hm : (be, some z, markerStr z) ∈ st.conflict_markers
            · rw [if_pos hm]
            · rw [if_neg hm]

theorem fallbackProcess_calls (geo : String → Option (String × String))
    (cents : List Nat) :
    ∀ (pairs : List (String × GeoStore)) (st : FbSt) (z : String),
      z ∈ (fallbackProcess geo cents st pairs).geocode_calls →
      z ∈ st.geocode_calls ∨
        ∃ p ∈ pairs, p.2.zip_code = some z ∧ p.2.id ∉ cents := by
  intro pairs
  induction pairs with
  | nil => intro st z hz; exact Or.inl hz
  | cons q rest ih =>
    intro st z hz
    unfold fallbackProcess at hz
    rcases ih _ z hz with h | ⟨p, hp, hpz, hpc⟩
    · rcases fallbackStep_calls geo cents q.1 st q.2 with heq | ⟨z0, hz0, hc0, heq⟩
      · rw [heq] at h
        exact Or.inl h
      · rw [heq] at h
        rcases List.mem_append.mp h with h2 | h2
        · exact Or.inl h2
        · refine Or.inr ⟨q, List.mem_cons_self _ _, ?_, hc0⟩
          rw [hz0]
          rw [List.mem_singleton.mp h2]
    · exact Or.inr ⟨p, List.mem_cons_of_mem _ hp, hpz, hpc⟩

theorem run_geocode_calls_from (db : List GeoStore)
    (fetch : String → Option (List Feature))
    (geo : String → Option (String × String)) (z : String)
    (hz : z ∈ (fix_missing_geometry db fetch geo).geocode_calls) :
    ∃ t ∈ selectMissing db, t.zip_code = some z ∧
      t.id ∉ centroidsOf (selectMissing db) := by
  rw [run_geocode_calls_eq] at hz
  unfold runFb at hz
  rcases fallbackProcess_calls geo (runCentroids db)
    (tagQueue (runP1 db fetch).1) (runFb0 db fetch) z hz with h | ⟨p, hp, hpz, hpc⟩
  · simp [runFb0] at h
  · rcases tagQueue_mem_mp hp with ⟨bp, hbp, _, hp2⟩
    have hq := phase1All_queue_spec (runCentroids db) fetch (runBrands db)
      (selectMissing db) ⟨[], 0, 0⟩ bp hbp
    exact ⟨p.2, (hq.2 p.2 hp2).2, hpz, hpc⟩

/-- C4 (amended): for a selected store that already held a centroid
address, every phase-1 precise-match update is geometry-only;
`centroid_upgrades` counts exactly the phase-1 updates whose target was a
centroid store (so a matched centroid store bumps it) and
`all_the_places` counts the rest; if the store's id gets a phase-1 update
its id is NOT in the failure-count increment set (and centroid_upgrades is
at least 1); if it gets no phase-1 update AND its normalized DB ZIP is
non-empty, it receives no batch update at all but its id IS in the
increment set; and every geocoding call is attributable to a queued
non-centroid store, so kept-centroid stores trigger none. The ZIP
condition is forced by the counterexample: with an empty normalized ZIP
the store is dropped at the index rebuild and never reaches the increment
set. -/
theorem c4_centroid_store_paths_amended (db : List GeoStore)
    (fetch : String → Option (List Feature))
    (geo : String → Option (String × String)) (s : GeoStore)
    (hnd : (db.map (fun r => r.id)).Nodup)
    (hs : s ∈ selectMissing db)
    (hc : s.id ∈ centroidsOf (selectMissing db)) :
    (∀ u ∈ (fix_missing_geometry db fetch geo).phase1_updates,
      u.address = none) ∧
    ((fix_missing_geometry db fetch geo).centroid_upgrades =
      upgCount (centroidsOf (selectMissing db))
        (fix_missing_geometry db fetch geo).phase1_updates ∧
     (fix_missing_geometry db fetch geo).all_the_places =
      newCount (centroidsOf (selectMissing db))
        (fix_missing_geometry db fetch geo).phase1_updates) ∧
    (s.id ∈ (fix_missing_geometry db fetch geo).phase1_updates.map
        (fun u => u.id) →
      s.id ∉ (fix_missing_geometry db fetch geo).increment_ids ∧
      1 ≤ (fix_missing_geometry db fetch geo).centroid_upgrades) ∧
    (s.id ∉ (fix_missing_geometry db fetch geo).phase1_updates.map
        (fun u => u.id) → ¬ dbZip s = "" →
      s.id ∈ (fix_missing_geometry db fetch geo).increment_ids ∧
      ∀ u ∈ (fix_missing_geometry db fetch geo).batch_updates,
        ¬ u.id = s.id) ∧
    (∀ z ∈ (fix_missing_geometry db fetch geo).geocode_calls,
      ∃ t ∈ selectMissing db, t.zip_code = some z ∧
        t.id ∉ centroidsOf (selectMissing db)) := by
  have hmnd : ((selectMissing db).map (fun r => r.id)).Nodup :=
    selectMissing_ids_nodup hnd
  have hbnd : (runBrands db).Nodup := by
    unfold runBrands
    exact (dedupFirstAux_spec ((selectMissing db).map
      (fun x => x.store_enum)) []).1
  rcases phase1All_updates_mono (runCentroids db) fetch (runBrands db)
    (selectMissing db) ⟨[], 0, 0⟩ with ⟨added, hadd1, hadd2⟩
  have hupd0 : (runP1 db fetch).2.updates = added := by
    unfold runP1
    rw [hadd1]
    exact List.nil_append added
  refine ⟨?_, run_stats_counts db fetch geo, ?_, ?_,
    fun z hz => run_geocode_calls_from db fetch geo z hz⟩
  · intro u hu
    rw [run_phase1_updates_eq, hupd0] at hu
    exact (hadd2 u hu).1
  · intro hin
    constructor
    · intro hinc
      have hin' : s.id ∈ ((phase1All (runCentroids db) fetch (runBrands db)
          (selectMissing db) ⟨[], 0, 0⟩).2.updates).map (fun u => u.id) := by
        rw [run_phase1_updates_eq] at hin
        exact hin
      rw [run_increment_ids_eq] at hinc
      unfold runFb at hinc
      rcases fallbackProcess_incIds geo (runCentroids db)
        (tagQueue (runP1 db fetch).1) (runFb0 db fetch) s.id hinc with
        h | ⟨p, hp, hpi⟩
      · simp [incIds, runFb0] at h
      · rcases tagQueue_mem_mp hp with ⟨bp, hbp, _, hp2⟩
        have hq := phase1All_queue_spec (runCentroids db) fetch
          (runBrands db) (selectMissing db) ⟨[], 0, 0⟩ bp hbp
        have hx := (hq.2 p.2 hp2).2
        have hps : p.2 = s := geoIdInj hmnd p.2 hx s hs hpi
        have hg3 := phase1All_matched_not_queued (runCentroids db) fetch
          (runBrands db) (selectMissing db) ⟨[], 0, 0⟩ s hmnd hbnd hs
          (by simp) hin' bp hbp
        exact hg3 (hps ▸ hp2)
    · rcases List.mem_map.mp hin with ⟨u, hu, huid⟩
      rw [(run_stats_counts db fetch geo).1]
      unfold upgCount
      have hpos : 0 < List.countP
          (fun u => decide (u.id ∈ centroidsOf (selectMissing db)))
          (fix_missing_geometry db fetch geo).phase1_updates :=
        List.countP_pos_iff.mpr ⟨u, hu, by simp [huid, hc]⟩
      omega
  · intro hnin hz
    have hbr : s.store_enum ∈ runBrands db := by
      unfold runBrands
      exact dedupFirstAux_mem ((selectMissing db).map
        (fun x => x.store_enum)) [] s.store_enum
        (List.mem_map.mpr ⟨s, hs, rfl⟩) (List.not_mem_nil _)
    have hnin' : s.id ∉ ((phase1All (runCentroids db) fetch (runBrands db)
        (selectMissing db) ⟨[], 0, 0⟩).2.updates).map (fun u => u.id) := by
      rw [run_phase1_updates_eq] at hnin
      exact hnin
    rcases phase1All_unmatched_queued (runCentroids db) fetch (runBrands db)
      (selectMissing db) ⟨[], 0, 0⟩ s hs hbr hz hnin' with ⟨bp, hbp, hsbp⟩
    constructor
    · rw [run_increment_ids_eq]
      unfold runFb
      exact fallbackProcess_cent_mem geo (runCentroids db)
        (tagQueue (runP1 db fetch).1) (runFb0 db fetch) bp.1 s
        (tagQueue_mem_mpr hbp hsbp) hc
    · intro u hu hus
      rw [run_batch_updates_eq] at hu
      unfold runFb at hu
      rcases fallbackProcess_updates geo (runCentroids db)
        (tagQueue (runP1 db fetch).1) (runFb0 db fetch) u hu with
        h | ⟨p, hp, hpid, hpnc⟩
      · apply hnin'
        refine List.mem_map.mpr ⟨u, ?_, hus⟩
        show u ∈ (runP1 db fetch).2.updates
        exact h
      · rcases tagQueue_mem_mp hp with ⟨bp2, hbp2, _, hp2⟩
        have hq := phase1All_queue_spec (runCentroids db) fetch
          (runBrands db) (selectMissing db) ⟨[], 0, 0⟩ bp2 hbp2
        have hx := (hq.2 p.2 hp2).2
        have hps : p.2 = s := geoIdInj hmnd p.2 hx s hs
          (by rw [← hpid, hus])
        apply hpnc
        rw [hps]
        exact hc

/-- A centroid-marked aldi row whose raw ZIP is the empty string, so its
normalized DB ZIP is empty. -/
def c4Store : GeoStore :=
  ⟨1, "aldi", some "", "Aldi Store", 0, some "ZIP  (centroid)", none⟩

/-- A backfill run over that single row: the dataset returns no features
(no precise match) and geocoding is never consulted. -/
def c4Run : RunResult :=
  fix_missing_geometry [c4Store] (fun _ => some []) (fun _ => none)

/-- C4 (counterexample): a centroid-holding store whose raw zip_code is
the empty string is selected and counted as an existing centroid and
receives no precise match, yet the run queues no update, makes no geocode
call and produces an EMPTY increment set, so its failure_count is not
incremented — refuting the claim that every unmatched centroid store
joins the failure-count increment set. -/
theorem c4_counterexample_empty_zip_centroid_skipped :
    c4Store ∈ selectMissing [c4Store] ∧
    c4Store.id ∈ centroidsOf (selectMissing [c4Store]) ∧
    c4Run.phase1_updates = [] ∧
    c4Run.batch_updates = [] ∧
    c4Run.geocode_calls = [] ∧
    c4Run.increment_ids = [] ∧
    c4Run.final_db = [c4Store] := by decide

/-- Two aldi rows with null geometry sharing ZIP 46123; the first has
already failed three times. -/
def c2Db : List GeoStore :=
  [⟨1, "aldi", some "46123", "Aldi A", 3, none, none⟩,
   ⟨2, "aldi", some "46123", "Aldi B", 0, none, none⟩]

/-- One backfill run in which every fetch and every geocode fails. -/
def c2Runs : List ((String → Option (List Feature)) ×
    (String → Option (String × String))) :=
  [(fun _ => none, fun _ => none)]

/-- C2 witness: the bound at a concrete two-row database (counts 3 and
0) under one run whose fetch and geocoding both fail. -/
theorem c2_failure_count_witness :
    (∀ s ∈ selectMissing c2Db, s.failure_count < 3) ∧
    (∀ s ∈ c2Db, ∃ t ∈ (fix_missing_geometry c2Db (fun _ => none)
        (fun _ => none)).final_db, t.id = s.id ∧
      (t.failure_count = s.failure_count ∨
        (s.failure_count < 3 ∧ t.failure_count = s.failure_count + 1))) ∧
    (∀ t ∈ iterateRuns c2Db c2Runs, t.failure_count ≤ 3) ∧
    (∀ s ∈ c2Db, 3 ≤ s.failure_count →
      ∃ t ∈ iterateRuns c2Db c2Runs, t.id = s.id ∧
        t.failure_count = s.failure_count ∧
        t ∉ selectMissing (iterateRuns c2Db c2Runs)) :=
  c2_failure_count_bound c2Db c2Runs (fun _ => none) (fun _ => none)
    (by decide) (by decide)

/-- An aldi row of ZIP 46123 already holding that ZIP's centroid marker. -/
def c3Db : List GeoStore :=
  [⟨1, "aldi", some "46123", "Aldi A", 0, some "ZIP 46123 (centroid)",
    some "POINT(1 1)"⟩]

/-- C3 witness: marker uniqueness for aldi in ZIP 46123 after a run over
a single row that already holds that marker. -/
theorem c3_marker_uniqueness_witness :
    markerHolders (fix_missing_geometry c3Db (fun _ => none)
      (fun _ => some ("40.0", "-86.0"))).final_db "aldi" "46123" ≤ 1 :=
  c3_centroid_marker_uniqueness c3Db (fun _ => none)
    (fun _ => some ("40.0", "-86.0")) (by decide)
    (fun b z => le_trans (List.countP_le_length _) (by decide))
    "aldi" "46123"

/-- A centroid-marked aldi row with a usable ZIP and no precise match. -/
def c4WStore : GeoStore :=
  ⟨1, "aldi", some "46123", "Aldi Store", 0, some "ZIP 46123 (centroid)",
    some "POINT(1 1)"⟩

/-- C4 witness: the amended paths at a single centroid-marked aldi row
with a usable ZIP, a dataset with no features and failing geocoding. -/
theorem c4_centroid_paths_witness :
    (∀ u ∈ (fix_missing_geometry [c4WStore] (fun _ => some [])
        (fun _ => none)).phase1_updates, u.address = none) ∧
    ((fix_missing_geometry [c4WStore] (fun _ => some [])
        (fun _ => none)).centroid_upgrades =
      upgCount (centroidsOf (selectMissing [c4WStore]))
        (fix_missing_geometry [c4WStore] (fun _ => some [])
          (fun _ => none)).phase1_updates ∧
     (fix_missing_geometry [c4WStore] (fun _ => some [])
        (fun _ => none)).all_the_places =
      newCount (centroidsOf (selectMissing [c4WStore]))
        (fix_missing_geometry [c4WStore] (fun _ => some [])
          (fun _ => none)).phase1_updates) ∧
    (c4WStore.id ∈ (fix_missing_geometry [c4WStore] (fun _ => some [])
        (fun _ => none)).phase1_updates.map (fun u => u.id) →
      c4WStore.id ∉ (fix_missing_geometry [c4WStore] (fun _ => some [])
        (fun _ => none)).increment_ids ∧
      1 ≤ (fix_missing_geometry [c4WStore] (fun _ => some [])
        (fun _ => none)).centroid_upgrades) ∧
    (c4WStore.id ∉ (fix_missing_geometry [c4WStore] (fun _ => some [])
        (fun _ => none)).phase1_updates.map (fun u => u.id) →
      ¬ dbZip c4WStore = "" →
      c4WStore.id ∈ (fix_missing_geometry [c4WStore] (fun _ => some [])
        (fun _ => none)).increment_ids ∧
      ∀ u ∈ (fix_missing_geometry [c4WStore] (fun _ => some [])
        (fun _ => none)).batch_updates, ¬ u.id = c4WStore.id) ∧
    (∀ z ∈ (fix_missing_geometry [c4WStore] (fun _ => some [])
        (fun _ => none)).geocode_calls,
      ∃ t ∈ selectMissing [c4WStore], t.zip_code = some z ∧
        t.id ∉ centroidsOf (selectMissing [c4WStore])) :=
  c4_centroid_store_paths_amended [c4WStore] (fun _ => some []) (fun _ => none) c4WStore
    (by decide) (by decide) (by decide)
end FixGeo

end SecretSauce
